import Mathlib

/-
Verification development for the Sudokuru puzzle generator core
(src/Generator/Board.ts, CellBoard.ts, Strategy.ts, Refutation.ts).

The TypeScript sources are shallowly embedded below.  Helper modules that
are not part of the reviewed sources (Group.ts, Cell.ts, Sudoku.ts,
Solver.ts, Hint.ts, SimpleSolver.ts, Random.ts) are reconstructed from the
specification; every such definition carries a doc comment starting with
"Modelled from the spec:".  Candidate digits "1".."9" are represented by
their zero-based indexes (Fin 9): index i stands for the digit i+1.
-/

namespace Sudokuru

/-- Modelled from the spec: Group.ts (CandidateSet) is absent from the
reviewed sources.  A Group is a 9-element bit-membership set over the
candidate indexes 0..8, optionally tagged with the (row, column) of the
cell whose notes it describes; the tag is metadata, not part of
equality or size. -/
structure Group where
  mem : Fin 9 → Bool
  row : Option Nat := none
  col : Option Nat := none
deriving DecidableEq

instance : Inhabited Group := ⟨⟨fun _ => false, none, none⟩⟩

/-- Modelled from the spec: `new Group(b)` creates the set empty (b =
false) or full (b = true), with no tag. -/
def Group.ofBool (b : Bool) : Group := ⟨fun _ => b, none, none⟩

/-- Modelled from the spec: `new Group(b, row, column)` also records the
cell tag used for "notes to remove" entries. -/
def Group.ofBoolTagged (b : Bool) (row col : Nat) : Group :=
  ⟨fun _ => b, some row, some col⟩

/-- Modelled from the spec: membership test for a candidate index. -/
def Group.contains (g : Group) (v : Fin 9) : Bool := g.mem v

/-- Modelled from the spec: membership test taking an unbounded index
(indexes outside 0..8 are never members). -/
def Group.containsNat (g : Group) (n : Nat) : Bool :=
  if h : n < 9 then g.mem ⟨n, h⟩ else false

/-- Modelled from the spec: `insert(v)` adds one candidate and reports
whether it was newly added. -/
def Group.insert (g : Group) (v : Fin 9) : Group × Bool :=
  if g.mem v then (g, false)
  else ({ g with mem := fun j => j == v || g.mem j }, true)

/-- Modelled from the spec: bulk insert of every member of another set,
reporting whether any value was newly added. -/
def Group.insertG (g : Group) (other : Group) : Group × Bool :=
  ({ g with mem := fun j => g.mem j || other.mem j },
   decide (∃ j, other.mem j = true ∧ g.mem j = false))

/-- Modelled from the spec: bulk removal of every member of another set. -/
def Group.removeG (g : Group) (other : Group) : Group :=
  { g with mem := fun j => g.mem j && !other.mem j }

/-- Modelled from the spec: number of members (popcount). -/
def Group.getSize (g : Group) : Nat :=
  ((List.finRange 9).filter (fun j => g.mem j)).length

/-- Modelled from the spec: intersection of two candidate sets. -/
def Group.inter (g h : Group) : Group :=
  { mem := fun j => g.mem j && h.mem j, row := g.row, col := g.col }

/-- Modelled from the spec: equality of membership (tags ignored). -/
def Group.equalsB (g h : Group) : Bool :=
  decide (∀ j, g.mem j = h.mem j)

/-- Modelled from the spec: `Group.getSubset(k)` enumerates every size-k
subset of the nine positions 0..8 as a Group. -/
def Group.getSubset (k : Nat) : List Group :=
  (List.sublistsLen k (List.finRange 9)).map
    (fun l => ⟨fun j => l.contains j, none, none⟩)

/-- Modelled from the spec: Cell.ts is absent from the reviewed sources.
A Cell is one grid position: coordinates, an optional placed value
(candidate index), and the candidate set of remaining notes. -/
structure Cell where
  row : Nat
  col : Nat
  value : Option (Fin 9) := none
  notes : Group := Group.ofBool false
deriving DecidableEq

instance : Inhabited Cell := ⟨⟨0, 0, none, default⟩⟩

/-- Modelled from the spec: a cell is empty when no value is placed. -/
def Cell.isEmpty (c : Cell) : Bool := c.value.isNone

/-- Modelled from the spec: derived box index (row/3)*3 + column/3. -/
def Cell.getBox (c : Cell) : Nat := (c.row / 3) * 3 + c.col / 3

/-- Modelled from the spec: box index of arbitrary coordinates. -/
def Cell.calculateBox (row col : Nat) : Nat := (row / 3) * 3 + col / 3

/-- Modelled from the spec: row of the top-left cell of a box. -/
def Cell.getBoxRowStart (box : Nat) : Nat := (box / 3) * 3

/-- Modelled from the spec: column of the top-left cell of a box. -/
def Cell.getBoxColumnStart (box : Nat) : Nat := (box % 3) * 3

/-- Modelled from the spec: removing a set of notes from a cell. -/
def Cell.removeNotes (c : Cell) (g : Group) : Cell :=
  { c with notes := c.notes.removeG g }

/-- Modelled from the spec: Sudoku.ts helper `getUnionOfSetNotes` — the
union of the notes of a list of cells. -/
def getUnionOfSetNotes (cells : List Cell) : Group :=
  cells.foldl (fun g c => (g.insertG c.notes).1) (Group.ofBool false)

/-- Modelled from the spec: Sudoku.ts helper `getSubsetOfCells` — the
cells whose position inside the list is a member of the index set
(indexes beyond the list length select nothing). -/
def getSubsetOfCells (cells : List Cell) (subset : Group) : List Cell :=
  (cells.enum.filter (fun p => subset.containsNat p.1)).map (fun p => p.2)

/-- Modelled from the spec: Sudoku.ts helper `cellsEqual` — whether two
cause lists resolve to the exact same cause-cell set (cells compared by
position). -/
def cellsContained (a b : List Cell) : Bool :=
  a.all (fun c => b.any (fun d => c.row == d.row && c.col == d.col))

/-- Modelled from the spec: see `cellsContained`. -/
def cellsEqual (a b : List Cell) : Bool :=
  cellsContained a b && cellsContained b a

/-- SudokuEnum.ROW_LENGTH. -/
def ROW_LENGTH : Nat := 9
/-- SudokuEnum.COLUMN_LENGTH. -/
def COLUMN_LENGTH : Nat := 9
/-- SudokuEnum.BOX_LENGTH. -/
def BOX_LENGTH : Nat := 3
/-- SudokuEnum.BOX_COUNT. -/
def BOX_COUNT : Nat := 9
/-- SudokuEnum.BOARD_LENGTH. -/
def BOARD_LENGTH : Nat := 81

/-- GroupEnum.ROW. -/
def gROW : Nat := 0
/-- GroupEnum.COLUMN. -/
def gCOLUMN : Nat := 1
/-- GroupEnum.BOX. -/
def gBOX : Nat := 2
/-- GroupEnum.COUNT. -/
def gCOUNT : Nat := 3

example : (Group.getSubset 3).length = 84 := by decide
example : ((Group.ofBool false).insert 4).2 = true := by decide
example : (((Group.ofBool false).insert 4).1.insert 4).2 = false := by decide
example : (Group.ofBool true).getSize = 9 := by decide

/-- Modelled from the spec: insert taking an unbounded index. -/
def Group.insertNat (g : Group) (n : Nat) : Group × Bool :=
  if h : n < 9 then g.insert ⟨n, h⟩ else (g, false)

/-- StrategyEnum (Sudoku.ts, absent from the reviewed sources).
Modelled from the spec: the catalogue in its priority order (§4.4);
only the identities of the members matter to the embedded code. -/
def sAMEND_NOTES : Nat := 0
/-- StrategyEnum member, see `sAMEND_NOTES`. -/
def sSIMPLIFY_NOTES : Nat := 1
/-- StrategyEnum member, see `sAMEND_NOTES`. -/
def sNAKED_SINGLE : Nat := 2
/-- StrategyEnum member, see `sAMEND_NOTES`. -/
def sNAKED_PAIR : Nat := 3
/-- StrategyEnum member, see `sAMEND_NOTES`. -/
def sNAKED_TRIPLET : Nat := 4
/-- StrategyEnum member, see `sAMEND_NOTES`. -/
def sNAKED_QUADRUPLET : Nat := 5
/-- StrategyEnum member, see `sAMEND_NOTES`. -/
def sNAKED_QUINTUPLET : Nat := 6
/-- StrategyEnum member, see `sAMEND_NOTES`. -/
def sNAKED_SEXTUPLET : Nat := 7
/-- StrategyEnum member, see `sAMEND_NOTES`. -/
def sNAKED_SEPTUPLET : Nat := 8
/-- StrategyEnum member, see `sAMEND_NOTES`. -/
def sNAKED_OCTUPLET : Nat := 9
/-- StrategyEnum member, see `sAMEND_NOTES`. -/
def sHIDDEN_SINGLE : Nat := 10
/-- StrategyEnum member, see `sAMEND_NOTES`. -/
def sHIDDEN_PAIR : Nat := 11
/-- StrategyEnum member, see `sAMEND_NOTES`. -/
def sHIDDEN_TRIPLET : Nat := 12
/-- StrategyEnum member, see `sAMEND_NOTES`. -/
def sHIDDEN_QUADRUPLET : Nat := 13
/-- StrategyEnum member, see `sAMEND_NOTES`. -/
def sHIDDEN_QUINTUPLET : Nat := 14
/-- StrategyEnum member, see `sAMEND_NOTES`. -/
def sHIDDEN_SEXTUPLET : Nat := 15
/-- StrategyEnum member, see `sAMEND_NOTES`. -/
def sHIDDEN_SEPTUPLET : Nat := 16
/-- StrategyEnum member, see `sAMEND_NOTES`. -/
def sHIDDEN_OCTUPLET : Nat := 17
/-- StrategyEnum member, see `sAMEND_NOTES`. -/
def sPOINTING_PAIR : Nat := 18
/-- StrategyEnum member, see `sAMEND_NOTES`. -/
def sPOINTING_TRIPLET : Nat := 19
/-- StrategyEnum member, see `sAMEND_NOTES`. -/
def sBOX_LINE_REDUCTION : Nat := 20
/-- StrategyEnum member, see `sAMEND_NOTES`. -/
def sX_WING : Nat := 21
/-- StrategyEnum member, see `sAMEND_NOTES`. -/
def sSWORDFISH : Nat := 22
/-- StrategyEnum member, see `sAMEND_NOTES`. -/
def sSINGLES_CHAINING : Nat := 23
/-- StrategyEnum.COUNT, see `sAMEND_NOTES`. -/
def sCOUNT : Nat := 24

/-- CellBoard (src/Generator/CellBoard.ts): the cell grid plus per-group
bookkeeping.  The `searchedGroups` memoization table is absent from the
reviewed CellBoard.ts (only its callers in Strategy.ts remain); it is
modelled from the spec (§4.3): one flag per (strategy, group kind, group
index) triple. -/
structure CellBoard where
  cells : Nat → Nat → Cell
  valuesPlaced : Nat → Nat → Group
  indexesPlaced : Nat → Nat → Group
  searchedGroups : Nat → Nat → Nat → Bool

/-- CellBoard.getCell: the k-th cell of a row, column or box. -/
def CellBoard.getCell (cb : CellBoard) (group groupIndex index : Nat) : Cell :=
  if group = gROW then cb.cells groupIndex index
  else if group = gCOLUMN then cb.cells index groupIndex
  else cb.cells (Cell.getBoxRowStart groupIndex + index / 3)
                (Cell.getBoxColumnStart groupIndex + index % 3)

/-- CellBoard.getCellsInGroup: the nine cells of a group, in group order
(the cached cellGroups list of the source). -/
def CellBoard.getCellsInGroup (cb : CellBoard) (group index : Nat) : List Cell :=
  (List.range 9).map (fun k => cb.getCell group index k)

/-- CellBoard.getEmptyCellsInGroup: the group's cells filtered by
emptiness. -/
def CellBoard.getEmptyCellsInGroup (cb : CellBoard) (group index : Nat) : List Cell :=
  (cb.getCellsInGroup group index).filter (fun c => c.isEmpty)

/-- CellBoard.getValuesPlaced. -/
def CellBoard.getValuesPlaced (cb : CellBoard) (group index : Nat) : Group :=
  cb.valuesPlaced group index

/-- getSearchedGroups (Modelled from the spec: the memoization table is
absent from the reviewed CellBoard.ts). -/
def CellBoard.getSearchedGroups (cb : CellBoard) (strategy group index : Nat) : Bool :=
  cb.searchedGroups strategy group index

/-- setSearchedGroups (Modelled from the spec: the memoization table is
absent from the reviewed CellBoard.ts). -/
def CellBoard.setSearchedGroups (cb : CellBoard) (strategy group index : Nat)
    (b : Bool) : CellBoard :=
  { cb with searchedGroups := fun s g i =>
      if s = strategy ∧ g = group ∧ i = index then b
      else cb.searchedGroups s g i }

/-- CellBoard.setValue: places a value in a cell and updates the
placed-value and placed-index sets of the cell's row, column and box.
The final step — clearing the searched-groups flags of those three groups
for every strategy — is Modelled from the spec (§4.3 invariant: "any call
to setValue or note removal affecting a group must clear that group's
search flags for all techniques"), the table being absent from the
reviewed CellBoard.ts. -/
def CellBoard.setValue (cb : CellBoard) (row col : Nat) (v : Fin 9) : CellBoard :=
  let box := Cell.calculateBox row col
  { cells := fun r c =>
      if r = row ∧ c = col then { cb.cells r c with value := some v }
      else cb.cells r c,
    valuesPlaced := fun g i =>
      if (g = gROW ∧ i = row) ∨ (g = gCOLUMN ∧ i = col) ∨ (g = gBOX ∧ i = box)
      then ((cb.valuesPlaced g i).insert v).1
      else cb.valuesPlaced g i,
    indexesPlaced := fun g i =>
      if g = gROW ∧ i = row then ((cb.indexesPlaced g i).insertNat col).1
      else if g = gCOLUMN ∧ i = col then ((cb.indexesPlaced g i).insertNat row).1
      else if g = gBOX ∧ i = box
      then ((cb.indexesPlaced g i).insertNat ((row % 3) * 3 + col % 3)).1
      else cb.indexesPlaced g i,
    searchedGroups := fun s g i =>
      if (g = gROW ∧ i = row) ∨ (g = gCOLUMN ∧ i = col) ∨ (g = gBOX ∧ i = box)
      then false
      else cb.searchedGroups s g i }

/-- CellBoard.removeNotes: removes notes from a cell.  The clearing of
the searched-groups flags of the cell's three groups is Modelled from the
spec (§4.3 invariant), the table being absent from the reviewed
CellBoard.ts. -/
def CellBoard.removeNotes (cb : CellBoard) (row col : Nat) (notes : Group) : CellBoard :=
  let box := Cell.calculateBox row col
  { cb with
    cells := fun r c =>
      if r = row ∧ c = col then (cb.cells r c).removeNotes notes
      else cb.cells r c,
    searchedGroups := fun s g i =>
      if (g = gROW ∧ i = row) ∨ (g = gCOLUMN ∧ i = col) ∨ (g = gBOX ∧ i = box)
      then false
      else cb.searchedGroups s g i }

/-- Modelled from the spec: a CellBoard whose bookkeeping is consistent
with the given cell grid, i.e. the state reached by constructing the
CellBoard and placing each already-filled cell's value via setValue
(§3 GroupIndex invariant: placed-value and filled-position sets are
always consistent with the underlying cell values). -/
def CellBoard.ofCells (cells : Nat → Nat → Cell) : CellBoard :=
  { cells := cells,
    valuesPlaced := fun g i =>
      ((List.range 9).map (fun k =>
          if g = gROW then cells i k
          else if g = gCOLUMN then cells k i
          else cells (Cell.getBoxRowStart i + k / 3)
                     (Cell.getBoxColumnStart i + k % 3))).foldl
        (fun acc c => match c.value with
          | some v => (acc.insert v).1
          | none => acc) (Group.ofBool false),
    indexesPlaced := fun g i =>
      ((List.range 9).filter (fun k =>
          ¬ (if g = gROW then cells i k
             else if g = gCOLUMN then cells k i
             else cells (Cell.getBoxRowStart i + k / 3)
                        (Cell.getBoxColumnStart i + k % 3)).isEmpty)).foldl
        (fun acc k => (acc.insertNat k).1) (Group.ofBool false),
    searchedGroups := fun _ _ _ => false }

/-- Strategy result state (src/Generator/Strategy.ts fields): cause,
groups, values to place, notes to remove, strategy type, identified flag
and difficulty.  Fields start in the state produced by the constructor
and by `reset()`. -/
structure StratState where
  cause : List Cell := []
  groups : List (Nat × Nat) := []
  values : List Cell := []
  notes : List Group := []
  strategyType : Option Nat := none
  identified : Bool := false
  difficulty : Option Int := none
deriving DecidableEq

/-- Strategy.reset: restores the initial state. -/
def StratState.reset : StratState := {}

/-- Strategy.getStrategyTuple: the tuple size of a naked/hidden strategy
(TupleEnum.SINGLE = 1 .. TupleEnum.OCTUPLET = 8; the source returns
undefined on other inputs, embedded as 0). -/
def getStrategyTuple (strategyType : Nat) : Nat :=
  if strategyType = sNAKED_SINGLE ∨ strategyType = sHIDDEN_SINGLE then 1
  else if strategyType = sNAKED_PAIR then 2
  else if strategyType = sNAKED_TRIPLET then 3
  else if strategyType = sNAKED_QUADRUPLET then 4
  else if strategyType = sNAKED_QUINTUPLET then 5
  else if strategyType = sNAKED_SEXTUPLET then 6
  else if strategyType = sNAKED_SEPTUPLET then 7
  else if strategyType = sNAKED_OCTUPLET then 8
  else 0

/-- Strategy.isNakedSetStrategy. -/
def isNakedSetStrategy (strategyType : Nat) : Bool :=
  strategyType = sNAKED_SINGLE || strategyType = sNAKED_PAIR ||
  strategyType = sNAKED_TRIPLET || strategyType = sNAKED_QUADRUPLET ||
  strategyType = sNAKED_QUINTUPLET || strategyType = sNAKED_SEXTUPLET ||
  strategyType = sNAKED_SEPTUPLET || strategyType = sNAKED_OCTUPLET

/-- Strategy.getNakedSetDifficultyLowerBound (DifficultyLowerBounds; the
source returns undefined on other inputs, embedded as 0). -/
def getNakedSetDifficultyLowerBound (tuple : Nat) : Int :=
  if tuple = 1 then 10
  else if tuple = 2 then 40
  else if tuple = 3 then 60
  else if tuple = 4 then 90
  else if tuple = 5 then 140
  else if tuple = 6 then 200
  else if tuple = 7 then 300
  else if tuple = 8 then 450
  else 0

/-- Strategy.getNakedSetDifficultyUpperBound (DifficultyUpperBounds; the
source returns undefined on other inputs, embedded as 0). -/
def getNakedSetDifficultyUpperBound (tuple : Nat) : Int :=
  if tuple = 1 then 10
  else if tuple = 2 then 60
  else if tuple = 3 then 90
  else if tuple = 4 then 140
  else if tuple = 5 then 140
  else if tuple = 6 then 200
  else if tuple = 7 then 300
  else if tuple = 8 then 450
  else 0

/-- Strategy.isNakedSet: checks whether the cells selected by
`inNakedSet` out of `cells` (the empty cells of group `i` of kind
`group`) form a naked set of size `tuple`, and if so records values to
place (size 1) or notes to remove, cause, groups and difficulty,
including the shared-box extension for row/column sets.  State is
threaded explicitly; the Bool is the source's return value. -/
def isNakedSet (cb : CellBoard) (tuple : Nat) (group i : Nat) (cells : List Cell)
    (inNakedSet : Group) (s : StratState) : StratState × Bool :=
  let nakedSet := getSubsetOfCells cells inNakedSet
  if nakedSet.length ≠ tuple then (s, false) else
  let nakedSetCandidates := getUnionOfSetNotes nakedSet
  if nakedSetCandidates.getSize ≠ tuple then (s, false) else
  if tuple = 1 then
    let c0 := nakedSet.headI
    let single := ((List.finRange 9).filter (fun j => nakedSetCandidates.mem j)).getLast?
    ({ s with
        values := s.values ++ [{ row := c0.row, col := c0.col, value := single }],
        cause := s.cause ++ [{ row := c0.row, col := c0.col }],
        identified := true,
        difficulty := some 10 }, true)
  else
    let pushedCells := cells.enum.filter (fun p =>
      !(inNakedSet.containsNat p.1) &&
      0 < ((p.2).notes.inter nakedSetCandidates).getSize)
    let s1 := { s with notes := s.notes ++ pushedCells.map (fun p =>
      ((Group.ofBoolTagged false p.2.row p.2.col).insertG nakedSetCandidates).1) }
    if s1.notes.length = 0 then (s1, false) else
    let s2 := { s1 with
        identified := true,
        cause := s1.cause ++ nakedSet.map (fun (c : Cell) => ({ row := c.row, col := c.col } : Cell)),
        groups := s1.groups ++ [(group, i)] }
    let distRat : ℚ :=
      if group = gROW then
        (((nakedSet.getLastD default).row : ℚ) - ((nakedSet.headI).row : ℚ)) / (9 - 1)
      else if group = gCOLUMN then
        (((nakedSet.getLastD default).col : ℚ) - ((nakedSet.headI).col : ℚ)) / (9 - 1)
      else
        let minRow := nakedSet.foldl (fun m c => min m c.row) 9
        let minCol := nakedSet.foldl (fun m c => min m c.col) 9
        let maxRow := nakedSet.foldl (fun m c => max m c.row) 0
        let maxCol := nakedSet.foldl (fun m c => max m c.col) 0
        (((maxRow : ℚ) - (minRow : ℚ)) + ((maxCol : ℚ) - (minCol : ℚ))) / ((3 - 1) * 2)
    let lb := getNakedSetDifficultyLowerBound tuple
    let ub := getNakedSetDifficultyUpperBound tuple
    let s3 := { s2 with difficulty := some (lb + Int.ceil (distRat * ((ub : ℚ) - (lb : ℚ)))) }
    if group ≠ gBOX then
      let headNote := s3.notes.headI
      let usedRow : Int := if group = gROW then (headNote.row.getD 0 : Int) else -1
      let usedCol : Int := if group = gROW then -1 else (headNote.col.getD 0 : Int)
      let boxes := nakedSet.foldl (fun acc c => (acc.insertNat c.getBox).1) (Group.ofBool false)
      let box := (nakedSet.getLastD default).getBox
      if boxes.getSize = 1 then
        let boxCells := cb.getEmptyCellsInGroup gBOX box
        let s4 := boxCells.foldl (fun st c =>
          if (c.row : Int) ≠ usedRow ∧ (c.col : Int) ≠ usedCol then
            if 0 < (c.notes.inter nakedSetCandidates).getSize then
              let st1 := { st with notes := st.notes ++
                [((Group.ofBoolTagged false c.row c.col).insertG nakedSetCandidates).1] }
              if st1.groups.length = 1
              then { st1 with groups := st1.groups ++ [(gBOX, c.getBox)] }
              else st1
            else st
          else st) s3
        (s4, true)
      else (s3, true)
    else (s3, true)

/-- The cells of the group that are not part of the candidate hidden
set and are empty (the source's notHiddenSet local). -/
def notHiddenSetOf (cells : List Cell) (inHiddenSet : Group) : List Cell :=
  (cells.enum.filter (fun p =>
    !(inHiddenSet.containsNat p.1) && p.2.isEmpty)).map (fun p => p.2)

/-- The values already placed in a group (the source's used local,
collected from getCellsInGroup). -/
def valuesInGroup (cb : CellBoard) (group i : Nat) : Group :=
  (cb.getCellsInGroup group i).foldl (fun acc c =>
    match c.value with
    | some v => (acc.insert v).1
    | none => acc) (Group.ofBool false)

/-- The hidden-set candidates of a selection: the union of the selected
cells' notes with the group's placed values excluded (the source's
hiddenSetCandidates local after `remove(used)`). -/
def hsCand (cb : CellBoard) (group i : Nat) (cells : List Cell) (subset : Group) : Group :=
  (getUnionOfSetNotes (getSubsetOfCells cells subset)).removeG (valuesInGroup cb group i)

/-- The other empty cells' candidates with the group's placed values
excluded (the source's notHiddenSetCandidates local after
`remove(used)`). -/
def nhsCand (cb : CellBoard) (group i : Nat) (cells : List Cell) (subset : Group) : Group :=
  (getUnionOfSetNotes (notHiddenSetOf cells subset)).removeG (valuesInGroup cb group i)

/-- Strategy.isHiddenSet: checks whether the cells selected by
`inHiddenSet` out of `cells` (the empty cells of group `i` of kind
`group`) form a hidden set of size `tuple`, and if so records notes to
remove, cause, the one implicated group, and (for singles) difficulty.
State is threaded explicitly; the Bool is the source's return value. -/
def isHiddenSet (cb : CellBoard) (tuple : Nat) (group i : Nat) (cells : List Cell)
    (inHiddenSet : Group) (s : StratState) : StratState × Bool :=
  let hiddenSet := getSubsetOfCells cells inHiddenSet
  if hiddenSet.length ≠ tuple then (s, false) else
  let notHiddenSet := notHiddenSetOf cells inHiddenSet
  let notHiddenSetCandidates := nhsCand cb group i cells inHiddenSet
  let hiddenSetCandidates := hsCand cb group i cells inHiddenSet
  if hiddenSetCandidates.getSize -
      (hiddenSetCandidates.inter notHiddenSetCandidates).getSize ≠ tuple then (s, false) else
  let s1 := hiddenSet.foldl (fun st c =>
      if 0 < (c.notes.inter notHiddenSetCandidates).getSize then
        { st with
            notes := st.notes ++
              [((Group.ofBoolTagged false c.row c.col).insertG notHiddenSetCandidates).1],
            identified := true }
      else st) s
  if !s1.identified then (s1, false) else
  let s2 := { s1 with
      groups := s1.groups ++ [(group, i)],
      cause := s1.cause ++ notHiddenSet.map (fun (c : Cell) => ({ row := c.row, col := c.col } : Cell)) }
  let noteCount : Nat := hiddenSet.foldl (fun acc c => acc + c.notes.getSize) 0
  let noteFrac : ℚ := (noteCount : ℚ) / (9 * 9)
  if tuple = 1 then
    ({ s2 with difficulty := some ((20 : Int) + Int.ceil (noteFrac * ((40 : ℚ) - 20))) }, true)
  else (s2, true)

/-- CustomErrorEnum (CustomError.ts): the error kinds raised by the
generator core. -/
inductive CustomErrorEnum where
  | INVALID_BOARD_LENGTH
  | INVALID_BOARD_CHARACTERS
  | BOARD_ALREADY_SOLVED
  | DUPLICATE_VALUE_IN_ROW
  | DUPLICATE_VALUE_IN_COLUMN
  | DUPLICATE_VALUE_IN_BOX
  | UNSOLVABLE
  | MULTIPLE_SOLUTIONS
  | STRATEGY_NOT_IDENTIFIED
deriving DecidableEq, Repr

/-- The mutable state scanned by Strategy.isStrategy: the strategy
fields, the cell board (whose searched-groups flags isStrategy updates),
the `used` flag and the recorded drill hint (Hint.getCellsCause is
modelled from the spec as the immutable snapshot of the cause taken when
the hint was built). -/
structure ScanState where
  strat : StratState
  cb : CellBoard
  used : Bool
  drillHint : Option (List Cell)

/-- The body run by Strategy.isStrategy when a detector reports a match:
outside drill mode return true at once; in drill mode record the first
instance (snapshot its cause into a Hint, then reset), and compare every
later instance's cause against the snapshot, returning false on a
mismatch.  An `Except.error` models the source's early `return`. -/
def handleFound (drill : Bool) (st : ScanState) (s1 : StratState) :
    Except (Bool × StratState × CellBoard) ScanState :=
  if !drill then .error (true, s1, st.cb)
  else if !st.used then
    .ok { st with strat := StratState.reset, used := true, drillHint := some s1.cause }
  else if !(cellsEqual s1.cause (st.drillHint.getD [])) then .error (false, s1, st.cb)
  else .ok { st with strat := s1 }

/-- The inner subset loop of Strategy.isStrategy (naked-set /
hidden-single branch): try every candidate subset of the group's empty
cells. -/
def scanSubsets (drill : Bool) (strategyType tuple group i : Nat) (cells : List Cell) :
    List Group → ScanState → Except (Bool × StratState × CellBoard) ScanState
  | [], st => .ok st
  | sub :: rest, st =>
    let res :=
      if isNakedSetStrategy strategyType
      then isNakedSet st.cb tuple group i cells sub st.strat
      else isHiddenSet st.cb tuple group i cells sub st.strat
    match res with
    | (s1, false) =>
        scanSubsets drill strategyType tuple group i cells rest { st with strat := s1 }
    | (s1, true) =>
        match handleFound drill st s1 with
        | .error r => .error r
        | .ok st1 => scanSubsets drill strategyType tuple group i cells rest st1

/-- The outer (group kind, group index) loop of Strategy.isStrategy
(naked-set / hidden-single branch): skip groups already searched or with
too few unfilled cells, scan the rest, and mark each scanned group as
searched unless an instance was found. -/
def scanGroups (drill : Bool) (strategyType tuple : Nat) (subsets : List Group) :
    List (Nat × Nat) → ScanState → Except (Bool × StratState × CellBoard) ScanState
  | [], st => .ok st
  | (g, i) :: rest, st =>
    if st.cb.getSearchedGroups strategyType g i then
      scanGroups drill strategyType tuple subsets rest st
    else if 9 - tuple < (st.cb.getValuesPlaced g i).getSize then
      scanGroups drill strategyType tuple subsets rest st
    else
      let cells := st.cb.getEmptyCellsInGroup g i
      match scanSubsets drill strategyType tuple g i cells subsets st with
      | .error r => .error r
      | .ok st1 =>
          scanGroups drill strategyType tuple subsets rest
            { st1 with cb := st1.cb.setSearchedGroups strategyType g i (!st1.used) }

/-- The (group kind, index) pairs in the order isStrategy visits them:
rows 0..8, then columns 0..8, then boxes 0..8. -/
def allGroupIndexPairs : List (Nat × Nat) :=
  (List.range gCOUNT).flatMap (fun g => (List.range 9).map (fun i => (g, i)))

/-- Strategy.isStrategy, naked-set / hidden-single branch (the
amend/simplify branch of the source is separate code not exercised by
the theorems below; for strategy types handled by neither branch the
source falls through and returns the initial `used = false`, as here).
Returns the source's boolean return value together with the strategy
state and the cell board (searched-groups flags) as left behind. -/
def isStrategy (cb : CellBoard) (strategyType : Nat) (drill : Bool) (s : StratState) :
    Bool × StratState × CellBoard :=
  if isNakedSetStrategy strategyType || strategyType = sHIDDEN_SINGLE then
    let tuple := getStrategyTuple strategyType
    let subsets := Group.getSubset tuple
    match scanGroups drill strategyType tuple subsets allGroupIndexPairs
        { strat := s, cb := cb, used := false, drillHint := none } with
    | .error r => r
    | .ok st => (st.used, st.strat, st.cb)
  else (false, s, cb)

/-- Strategy.setStrategyType: runs isStrategy and on success records the
type and sets the identified flag. -/
def setStrategyType (cb : CellBoard) (s : StratState) (strategyType : Nat)
    (drill : Bool) : (StratState × CellBoard) × Bool :=
  match isStrategy cb strategyType drill s with
  | (true, s1, cb1) =>
      (({ s1 with strategyType := some strategyType, identified := true }, cb1), true)
  | (false, s1, cb1) => ((s1, cb1), false)

/-- Strategy.verifyIdentified: guard raising STRATEGY_NOT_IDENTIFIED
while the identified flag is unset. -/
def verifyIdentified (s : StratState) : Except CustomErrorEnum Unit :=
  if s.identified then .ok () else .error .STRATEGY_NOT_IDENTIFIED

/-- Strategy.getCause. -/
def Strategy.getCause (s : StratState) : Except CustomErrorEnum (List Cell) :=
  (verifyIdentified s).bind (fun _ => .ok s.cause)

/-- Strategy.getGroups. -/
def Strategy.getGroups (s : StratState) : Except CustomErrorEnum (List (Nat × Nat)) :=
  (verifyIdentified s).bind (fun _ => .ok s.groups)

/-- Strategy.getValuesToPlace. -/
def Strategy.getValuesToPlace (s : StratState) : Except CustomErrorEnum (List Cell) :=
  (verifyIdentified s).bind (fun _ => .ok s.values)

/-- Strategy.getNotesToRemove. -/
def Strategy.getNotesToRemove (s : StratState) : Except CustomErrorEnum (List Group) :=
  (verifyIdentified s).bind (fun _ => .ok s.notes)

/-- Strategy.getDifficulty. -/
def Strategy.getDifficulty (s : StratState) : Except CustomErrorEnum (Option Int) :=
  (verifyIdentified s).bind (fun _ => .ok s.difficulty)

/-- Strategy.getStrategyType: the source returns the field with no
verifyIdentified guard, so the embedded accessor never produces an
error. -/
def Strategy.getStrategyType (s : StratState) : Except CustomErrorEnum (Option Nat) :=
  .ok s.strategyType

/-- The characters accepted by validatePuzzle's regex
`^[0123456789]*$` (SudokuEnum.EMPTY_CELL + SudokuEnum.CANDIDATES). -/
def validChar (c : Char) : Bool :=
  ['0', '1', '2', '3', '4', '5', '6', '7', '8', '9'].contains c

/-- Modelled from the spec: Group.insert taking a digit character "1".."9"
(stored at its zero-based index). -/
def Group.insertChar (g : Group) (c : Char) : Group × Bool :=
  g.insertNat (c.toNat - 49)

/-- Modelled from the spec: `getBoardArray` — the 81-character string read
row-major; out-of-range positions read as empty. -/
def boardCellChar (l : List Char) (r c : Nat) : Char :=
  l.getD (r * 9 + c) '0'

/-- The characters of one row, in the column order validatePuzzle scans. -/
def rowChars (l : List Char) (r : Nat) : List Char :=
  (List.range 9).map (fun c => boardCellChar l r c)

/-- The characters of one column, in the row order validatePuzzle scans. -/
def colChars (l : List Char) (c : Nat) : List Char :=
  (List.range 9).map (fun r => boardCellChar l r c)

/-- The characters of one box, in the row-major order validatePuzzle
scans (rows rowStart..rowStart+2, columns columnStart..columnStart+2). -/
def boxChars (l : List Char) (b : Nat) : List Char :=
  (List.range 3).flatMap (fun dr =>
    (List.range 3).map (fun dc =>
      boardCellChar l (Cell.getBoxRowStart b + dr) (Cell.getBoxColumnStart b + dc)))

/-- The duplicate scan validatePuzzle runs on each group: walk the
group's characters inserting each nonzero one into a Group, and report a
duplicate as soon as an insert finds the value already present. -/
def findDuplicate (cs : List Char) (g : Group) : Bool :=
  match cs with
  | [] => false
  | ch :: t =>
    if ch ≠ '0' then
      match g.insertChar ch with
      | (g1, true) => findDuplicate t g1
      | (_, false) => true
    else findDuplicate t g

/-- A board in functional form for the backtracking search. -/
def BoardFn : Type := Nat → Nat → Char

/-- The digit character for a candidate 1..9. -/
def digitChar (n : Nat) : Char := Char.ofNat (48 + n)

/-- Board.isPossibleCandidate: whether placing `value` at (row, col)
violates no row, column or box constraint. -/
def isPossibleCandidate (row col : Nat) (value : Char) (b : BoardFn) : Bool :=
  ((List.range 9).all (fun i => b row i != value)) &&
  ((List.range 9).all (fun i => b i col != value)) &&
  ((List.range 3).all (fun i => (List.range 3).all (fun j =>
      b ((row / 3) * 3 + i) ((col / 3) * 3 + j) != value)))

/-- Overwriting one cell of a functional board. -/
def setCellChar (b : BoardFn) (row col : Nat) (v : Char) : BoardFn :=
  fun r c => if r = row ∧ c = col then v else b r c

mutual

/-- Board.getSolutionCount: the recursive backtracking search — 0 when
unsolvable, 1 when uniquely solvable, 2 as soon as a second completion
is found (the search short-circuits past 1).  The in-place mutation of
the source is modelled by passing updated boards to the recursive calls
(the source restores each cell before returning). -/
def getSolutionCount (row col : Nat) (b : BoardFn) (solutions : Nat) : Nat :=
  if 9 ≤ row then 1 + solutions
  else if h : 9 ≤ col then getSolutionCount (row + 1) 0 b solutions
  else if b row col != '0' then getSolutionCount row (col + 1) b solutions
  else tryCandidates row col (by omega) b solutions 1
termination_by (9 - row, 9 - col, 1, 0)

/-- The candidate loop of getSolutionCount: try digits i..9 in the empty
cell (row, col), stopping as soon as more than one solution is known. -/
def tryCandidates (row col : Nat) (hcol : col < 9) (b : BoardFn)
    (solutions : Nat) (i : Nat) : Nat :=
  if 9 < i then solutions
  else if isPossibleCandidate row col (digitChar i) b then
    let s1 := getSolutionCount row (col + 1) (setCellChar b row col (digitChar i)) solutions
    if 1 < s1 then s1 else tryCandidates row col hcol b s1 (i + 1)
  else tryCandidates row col hcol b solutions (i + 1)
termination_by (9 - row, 9 - col, 0, 10 - i)

end

/-- Board.validatePuzzle: the validation cascade run at the start of
Board construction, in source order — length, characters, already
solved, duplicates in some row, then column, then box (the source throws
at the first failing row/column/box, so each loop is a disjunction over
the nine groups), then the backtracking solution count. -/
def validatePuzzle (s : String) : Except CustomErrorEnum Bool :=
  if s.data.length ≠ BOARD_LENGTH then .error .INVALID_BOARD_LENGTH
  else if !(s.data.all validChar) then .error .INVALID_BOARD_CHARACTERS
  else if !(s.data.contains '0') then .error .BOARD_ALREADY_SOLVED
  else if (List.range 9).any (fun r => findDuplicate (rowChars s.data r) (Group.ofBool false))
    then .error .DUPLICATE_VALUE_IN_ROW
  else if (List.range 9).any (fun c => findDuplicate (colChars s.data c) (Group.ofBool false))
    then .error .DUPLICATE_VALUE_IN_COLUMN
  else if (List.range 9).any (fun b => findDuplicate (boxChars s.data b) (Group.ofBool false))
    then .error .DUPLICATE_VALUE_IN_BOX
  else if getSolutionCount 0 0 (boardCellChar s.data) 0 = 0 then .error .UNSOLVABLE
  else if 1 < getSolutionCount 0 0 (boardCellChar s.data) 0 then .error .MULTIPLE_SOLUTIONS
  else .ok true

/-- The Board constructor shape: validatePuzzle runs before any other
construction work, so a validation error aborts construction with that
error and no partial Board is exposed.  `rest` stands for the remaining
construction (parsing, solving, scoring — total functions of the input;
Solver.ts is outside the reviewed sources). -/
def boardConstruct {α : Type} (rest : String → α) (s : String) :
    Except CustomErrorEnum α :=
  (validatePuzzle s).bind (fun _ => .ok (rest s))

/-- Membership of a digit character in a Group (at its zero-based
index), the condition under which the source's `insert` reports a
duplicate. -/
def Group.memChar (g : Group) (c : Char) : Bool := g.containsNat (c.toNat - 49)

/-- Specification-side predicate: some nonzero digit occurs (at least)
twice in the given group of cells. -/
def hasDupIn (cs : List Char) : Prop := ∃ v, v ≠ '0' ∧ 2 ≤ cs.count v

/-- Specification-side predicate: every character is one of 0-9. -/
def charsOk (l : List Char) : Prop := ∀ c ∈ l, validChar c = true

/-- Specification-side predicate: the board passes every structural
check of validatePuzzle (length, characters, an empty cell, no duplicate
in any row, column or box). -/
def structOk (l : List Char) : Prop :=
  l.length = 81 ∧ charsOk l ∧ '0' ∈ l ∧
  (∀ r < 9, ¬ hasDupIn (rowChars l r)) ∧
  (∀ c < 9, ¬ hasDupIn (colChars l c)) ∧
  (∀ b < 9, ¬ hasDupIn (boxChars l b))

lemma validChar_cases {c : Char} (h : validChar c = true) :
    c = '0' ∨ c = '1' ∨ c = '2' ∨ c = '3' ∨ c = '4' ∨ c = '5' ∨
    c = '6' ∨ c = '7' ∨ c = '8' ∨ c = '9' := by
  simpa [validChar, List.contains] using h

lemma validChar_idx_lt {c : Char} (hv : validChar c = true) (h0 : c ≠ '0') :
    c.toNat - 49 < 9 := by
  rcases validChar_cases hv with h | h | h | h | h | h | h | h | h | h <;>
    first
      | (exact absurd h h0)
      | (subst h; decide)

lemma validChar_idx_inj {c d : Char} (hc : validChar c = true) (hc0 : c ≠ '0')
    (hd : validChar d = true) (hd0 : d ≠ '0')
    (h : c.toNat - 49 = d.toNat - 49) : c = d := by
  rcases validChar_cases hc with h1 | h1 | h1 | h1 | h1 | h1 | h1 | h1 | h1 | h1 <;>
    rcases validChar_cases hd with h2 | h2 | h2 | h2 | h2 | h2 | h2 | h2 | h2 | h2 <;>
      first
        | (exact absurd h1 hc0)
        | (exact absurd h2 hd0)
        | (subst h1; subst h2; rfl)
        | (subst h1; subst h2; exact absurd h (by decide))

lemma insertChar_snd {g : Group} {c : Char} (h : c.toNat - 49 < 9) :
    (g.insertChar c).2 = !(g.memChar c) := by
  unfold Group.insertChar Group.insertNat Group.memChar Group.containsNat Group.insert
  rw [dif_pos h, dif_pos h]
  by_cases hm : g.mem ⟨c.toNat - 49, h⟩ = true
  · rw [if_pos hm, hm]
    rfl
  · rw [if_neg hm]
    simp only [Bool.not_eq_true] at hm
    rw [hm]
    rfl

lemma memChar_insertChar (g : Group) {c : Char} (d : Char) (hc : c.toNat - 49 < 9) :
    ((g.insertChar c).1).memChar d =
      (g.memChar d || decide (d.toNat - 49 = c.toNat - 49)) := by
  unfold Group.insertChar Group.insertNat Group.memChar Group.containsNat Group.insert
  rw [dif_pos hc]
  by_cases hm : g.mem ⟨c.toNat - 49, hc⟩ = true
  · rw [if_pos hm]
    by_cases h9 : d.toNat - 49 < 9
    · simp only [dif_pos h9]
      by_cases hd : d.toNat - 49 = c.toNat - 49
      · have hfin : (⟨d.toNat - 49, h9⟩ : Fin 9) = ⟨c.toNat - 49, hc⟩ := Fin.ext hd
        rw [hfin, hm]
        simp [hd]
      · simp [hd]
    · simp only [dif_neg h9]
      have hd : ¬ (d.toNat - 49 = c.toNat - 49) := fun h => h9 (h ▸ hc)
      simp [hd]
  · rw [if_neg hm]
    by_cases h9 : d.toNat - 49 < 9
    · simp only [dif_pos h9]
      by_cases hd : d.toNat - 49 = c.toNat - 49
      · simp [Fin.ext_iff, hd]
      · simp [Fin.ext_iff, hd]
    · simp only [dif_neg h9]
      have hd : ¬ (d.toNat - 49 = c.toNat - 49) := fun h => h9 (h ▸ hc)
      simp [hd]

lemma mem_filter_ne_zero {t : List Char} {c : Char} :
    c ∈ t.filter (fun d => d != '0') ↔ c ∈ t ∧ c ≠ '0' := by
  simp [List.mem_filter]

lemma findDuplicate_cons (ch : Char) (t : List Char) (g : Group) :
    findDuplicate (ch :: t) g =
      if ch ≠ '0' then
        match g.insertChar ch with
        | (g1, true) => findDuplicate t g1
        | (_, false) => true
      else findDuplicate t g := rfl

lemma findDuplicate_iff (cs : List Char) (g : Group)
    (hv : ∀ c ∈ cs, validChar c = true) :
    (findDuplicate cs g = true) ↔
      ((∃ c ∈ cs, c ≠ '0' ∧ g.memChar c = true) ∨
       ¬ (cs.filter (fun d => d != '0')).Nodup) := by
  induction cs generalizing g with
  | nil =>
    have h0 : findDuplicate [] g = false := rfl
    rw [h0]
    simp
  | cons ch t ih =>
    have hvch : validChar ch = true := hv ch (by simp)
    have hvt : ∀ c ∈ t, validChar c = true := fun c hc => hv c (by simp [hc])
    by_cases h0 : ch = '0'
    · subst h0
      have hstep : findDuplicate ('0' :: t) g = findDuplicate t g := by
        rw [findDuplicate_cons]
        simp
      rw [hstep, ih g hvt]
      apply or_congr
      · constructor
        · rintro ⟨c, hc, hc0, hm⟩
          exact ⟨c, List.mem_cons_of_mem _ hc, hc0, hm⟩
        · rintro ⟨c, hc, hc0, hm⟩
          rcases List.mem_cons.mp hc with rfl | hc2
          · exact absurd rfl hc0
          · exact ⟨c, hc2, hc0, hm⟩
      · have hfil : (('0' : Char) :: t).filter (fun d => d != '0') =
            t.filter (fun d => d != '0') := by simp
        rw [hfil]
    · have hidx : ch.toNat - 49 < 9 := validChar_idx_lt hvch h0
      have hfil : ((ch :: t).filter (fun d => d != '0')) =
          ch :: t.filter (fun d => d != '0') := by simp [h0]
      by_cases hm : g.memChar ch = true
      · have hsnd : (g.insertChar ch).2 = false := by
          rw [insertChar_snd hidx, hm]; rfl
        have hstep : findDuplicate (ch :: t) g = true := by
          rw [findDuplicate_cons, if_pos h0]
          rcases hE : g.insertChar ch with ⟨g1, b⟩
          have hb : b = false := by rw [hE] at hsnd; exact hsnd
          subst hb
          rfl
        rw [hstep]
        simp only [true_iff]
        exact Or.inl ⟨ch, List.mem_cons_self _ _, h0, hm⟩
      · have hm2 : g.memChar ch = false := by
          simpa using hm
        have hsnd : (g.insertChar ch).2 = true := by
          rw [insertChar_snd hidx, hm2]; rfl
        rcases hE : g.insertChar ch with ⟨g1, b⟩
        have hb : b = true := by rw [hE] at hsnd; exact hsnd
        subst hb
        have hstep : findDuplicate (ch :: t) g = findDuplicate t g1 := by
          rw [findDuplicate_cons, if_pos h0, hE]
        have hmem : ∀ d : Char, g1.memChar d =
            (g.memChar d || decide (d.toNat - 49 = ch.toNat - 49)) := by
          intro d
          have h2 := memChar_insertChar g d hidx
          rw [hE] at h2
          exact h2
        rw [hstep, ih g1 hvt, hfil]
        constructor
        · rintro (⟨c, hc, hc0, hmc⟩ | hnd)
          · rw [hmem c] at hmc
            rw [Bool.or_eq_true] at hmc
            rcases hmc with hmc2 | hidxeq
            · exact Or.inl ⟨c, List.mem_cons_of_mem _ hc, hc0, hmc2⟩
            · have hceq : c = ch :=
                validChar_idx_inj (hvt c hc) hc0 hvch h0 (by simpa using hidxeq)
              subst hceq
              refine Or.inr ?_
              rw [List.nodup_cons]
              intro hcontra
              exact hcontra.1 (mem_filter_ne_zero.mpr ⟨hc, h0⟩)
          · refine Or.inr ?_
            rw [List.nodup_cons]
            intro hcontra
            exact hnd hcontra.2
        · rintro (⟨c, hc, hc0, hmc⟩ | hnd)
          · rcases List.mem_cons.mp hc with rfl | hc2
            · rw [hm2] at hmc
              cases hmc
            · refine Or.inl ⟨c, hc2, hc0, ?_⟩
              rw [hmem c, hmc]
              rfl
          · rw [List.nodup_cons] at hnd
            rcases not_and_or.mp hnd with hin | hnd2
            · rw [not_not] at hin
              have hcin := mem_filter_ne_zero.mp hin
              refine Or.inl ⟨ch, hcin.1, h0, ?_⟩
              rw [hmem ch]
              simp
            · exact Or.inr hnd2

lemma not_nodup_filter_iff_hasDup (cs : List Char) :
    (¬ (cs.filter (fun d => d != '0')).Nodup) ↔ hasDupIn cs := by
  rw [List.nodup_iff_count_le_one]
  push_neg
  constructor
  · rintro ⟨v, hv⟩
    by_cases hvne : v = '0'
    · subst hvne
      have hzero : List.count '0' (cs.filter (fun d => d != '0')) = 0 :=
        List.count_eq_zero.mpr (by simp)
      omega
    · have heq : List.count v (cs.filter (fun d => d != '0')) = List.count v cs :=
        List.count_filter (by simp [hvne])
      exact ⟨v, hvne, by omega⟩
  · rintro ⟨v, hvne, hcount⟩
    refine ⟨v, ?_⟩
    rw [List.count_filter (by simp [hvne])]
    omega

lemma memChar_empty (c : Char) : (Group.ofBool false).memChar c = false := by
  unfold Group.memChar Group.containsNat Group.ofBool
  split <;> rfl

lemma boardCellChar_valid {l : List Char} (h : charsOk l) (r c : Nat) :
    validChar (boardCellChar l r c) = true := by
  unfold boardCellChar
  by_cases hlen : r * 9 + c < l.length
  · rw [List.getD_eq_getElem _ _ hlen]
    exact h _ (List.getElem_mem hlen)
  · rw [List.getD_eq_default _ _ (by omega)]
    rfl

lemma rowChars_valid {l : List Char} (h : charsOk l) (r : Nat) :
    ∀ c ∈ rowChars l r, validChar c = true := by
  intro c hc
  rcases List.mem_map.mp hc with ⟨i, _, rfl⟩
  exact boardCellChar_valid h _ _

lemma colChars_valid {l : List Char} (h : charsOk l) (c : Nat) :
    ∀ d ∈ colChars l c, validChar d = true := by
  intro d hd
  rcases List.mem_map.mp hd with ⟨i, _, rfl⟩
  exact boardCellChar_valid h _ _

lemma boxChars_valid {l : List Char} (h : charsOk l) (b : Nat) :
    ∀ d ∈ boxChars l b, validChar d = true := by
  intro d hd
  rcases List.mem_flatMap.mp hd with ⟨dr, _, hdr⟩
  rcases List.mem_map.mp hdr with ⟨dc, _, rfl⟩
  exact boardCellChar_valid h _ _

lemma findDuplicate_empty_iff (cs : List Char) (hv : ∀ c ∈ cs, validChar c = true) :
    (findDuplicate cs (Group.ofBool false) = true) ↔ hasDupIn cs := by
  rw [findDuplicate_iff cs _ hv, not_nodup_filter_iff_hasDup]
  simp [memChar_empty]

lemma anyDup_iff (mk : Nat → List Char)
    (hv : ∀ i, ∀ c ∈ mk i, validChar c = true) :
    ((List.range 9).any (fun i => findDuplicate (mk i) (Group.ofBool false)) = true) ↔
      ∃ i < 9, hasDupIn (mk i) := by
  rw [List.any_eq_true]
  constructor
  · rintro ⟨i, hi, hdup⟩
    exact ⟨i, List.mem_range.mp hi, (findDuplicate_empty_iff _ (hv i)).mp hdup⟩
  · rintro ⟨i, hi, hdup⟩
    exact ⟨i, List.mem_range.mpr hi, (findDuplicate_empty_iff _ (hv i)).mpr hdup⟩

lemma validatePuzzle_run_len {s : String} (h : ¬ s.data.length = 81) :
    validatePuzzle s = .error .INVALID_BOARD_LENGTH := by
  unfold validatePuzzle BOARD_LENGTH
  rw [if_pos h]

lemma validatePuzzle_run_chars {s : String} (h1 : s.data.length = 81)
    (h2 : ¬ charsOk s.data) :
    validatePuzzle s = .error .INVALID_BOARD_CHARACTERS := by
  unfold validatePuzzle BOARD_LENGTH
  rw [if_neg (by omega), if_pos]
  cases hB : s.data.all validChar
  · rfl
  · exact absurd (fun c hc => (List.all_eq_true.mp hB) c hc) h2

lemma validatePuzzle_run_solved {s : String} (h1 : s.data.length = 81)
    (h2 : charsOk s.data) (h3 : '0' ∉ s.data) :
    validatePuzzle s = .error .BOARD_ALREADY_SOLVED := by
  unfold validatePuzzle BOARD_LENGTH
  rw [if_neg (by omega),
      if_neg (by simp [List.all_eq_true]; intro c hc; exact h2 c hc),
      if_pos (by simp [h3])]

lemma validatePuzzle_run_duprow {s : String} (h1 : s.data.length = 81)
    (h2 : charsOk s.data) (h3 : '0' ∈ s.data)
    (h4 : ∃ r < 9, hasDupIn (rowChars s.data r)) :
    validatePuzzle s = .error .DUPLICATE_VALUE_IN_ROW := by
  unfold validatePuzzle BOARD_LENGTH
  rw [if_neg (by omega),
      if_neg (by simp [List.all_eq_true]; intro c hc; exact h2 c hc),
      if_neg (by simp [h3]),
      if_pos ((anyDup_iff _ (fun r => rowChars_valid h2 r)).mpr h4)]

lemma validatePuzzle_run_dupcol {s : String} (h1 : s.data.length = 81)
    (h2 : charsOk s.data) (h3 : '0' ∈ s.data)
    (h4 : ¬ ∃ r < 9, hasDupIn (rowChars s.data r))
    (h5 : ∃ c < 9, hasDupIn (colChars s.data c)) :
    validatePuzzle s = .error .DUPLICATE_VALUE_IN_COLUMN := by
  unfold validatePuzzle BOARD_LENGTH
  rw [if_neg (by omega),
      if_neg (by simp [List.all_eq_true]; intro c hc; exact h2 c hc),
      if_neg (by simp [h3]),
      if_neg (fun h => h4 ((anyDup_iff _ (fun r => rowChars_valid h2 r)).mp h)),
      if_pos ((anyDup_iff _ (fun c => colChars_valid h2 c)).mpr h5)]

lemma validatePuzzle_run_dupbox {s : String} (h1 : s.data.length = 81)
    (h2 : charsOk s.data) (h3 : '0' ∈ s.data)
    (h4 : ¬ ∃ r < 9, hasDupIn (rowChars s.data r))
    (h5 : ¬ ∃ c < 9, hasDupIn (colChars s.data c))
    (h6 : ∃ b < 9, hasDupIn (boxChars s.data b)) :
    validatePuzzle s = .error .DUPLICATE_VALUE_IN_BOX := by
  unfold validatePuzzle BOARD_LENGTH
  rw [if_neg (by omega),
      if_neg (by simp [List.all_eq_true]; intro c hc; exact h2 c hc),
      if_neg (by simp [h3]),
      if_neg (fun h => h4 ((anyDup_iff _ (fun r => rowChars_valid h2 r)).mp h)),
      if_neg (fun h => h5 ((anyDup_iff _ (fun c => colChars_valid h2 c)).mp h)),
      if_pos ((anyDup_iff _ (fun b => boxChars_valid h2 b)).mpr h6)]

lemma validatePuzzle_run_count {s : String} (h1 : s.data.length = 81)
    (h2 : charsOk s.data) (h3 : '0' ∈ s.data)
    (h4 : ¬ ∃ r < 9, hasDupIn (rowChars s.data r))
    (h5 : ¬ ∃ c < 9, hasDupIn (colChars s.data c))
    (h6 : ¬ ∃ b < 9, hasDupIn (boxChars s.data b)) :
    validatePuzzle s =
      (if getSolutionCount 0 0 (boardCellChar s.data) 0 = 0 then .error .UNSOLVABLE
       else if 1 < getSolutionCount 0 0 (boardCellChar s.data) 0
       then .error .MULTIPLE_SOLUTIONS
       else .ok true) := by
  unfold validatePuzzle BOARD_LENGTH
  rw [if_neg (by omega),
      if_neg (by simp [List.all_eq_true]; intro c hc; exact h2 c hc),
      if_neg (by simp [h3]),
      if_neg (fun h => h4 ((anyDup_iff _ (fun r => rowChars_valid h2 r)).mp h)),
      if_neg (fun h => h5 ((anyDup_iff _ (fun c => colChars_valid h2 c)).mp h)),
      if_neg (fun h => h6 ((anyDup_iff _ (fun b => boxChars_valid h2 b)).mp h))]


/-- C1: For every input string, Board.validatePuzzle raises exactly the
matching error, checking in this order: invalid-board-length when the
length is not 81; invalid-characters when some character is outside
0-9; board-already-solved when no 0 occurs; duplicate-in-row /
duplicate-in-column / duplicate-in-box when a nonzero digit occurs twice
in that row, column or box (rows checked before columns before boxes);
unsolvable when the backtracking search finds zero completions;
multiple-solutions when it finds at least two; otherwise it returns true.
A validation error aborts Board construction with that error (no partial
Board), and on success construction proceeds. -/
theorem c1_validatePuzzle_error_spec (s : String) :
    (validatePuzzle s = .error .INVALID_BOARD_LENGTH ↔ ¬ s.length = 81) ∧
    (validatePuzzle s = .error .INVALID_BOARD_CHARACTERS ↔
      s.length = 81 ∧ ¬ charsOk s.data) ∧
    (validatePuzzle s = .error .BOARD_ALREADY_SOLVED ↔
      s.length = 81 ∧ charsOk s.data ∧ '0' ∉ s.data) ∧
    (validatePuzzle s = .error .DUPLICATE_VALUE_IN_ROW ↔
      s.length = 81 ∧ charsOk s.data ∧ '0' ∈ s.data ∧
      (∃ r < 9, hasDupIn (rowChars s.data r))) ∧
    (validatePuzzle s = .error .DUPLICATE_VALUE_IN_COLUMN ↔
      s.length = 81 ∧ charsOk s.data ∧ '0' ∈ s.data ∧
      (∀ r < 9, ¬ hasDupIn (rowChars s.data r)) ∧
      (∃ c < 9, hasDupIn (colChars s.data c))) ∧
    (validatePuzzle s = .error .DUPLICATE_VALUE_IN_BOX ↔
      s.length = 81 ∧ charsOk s.data ∧ '0' ∈ s.data ∧
      (∀ r < 9, ¬ hasDupIn (rowChars s.data r)) ∧
      (∀ c < 9, ¬ hasDupIn (colChars s.data c)) ∧
      (∃ b < 9, hasDupIn (boxChars s.data b))) ∧
    (validatePuzzle s = .error .UNSOLVABLE ↔
      structOk s.data ∧ getSolutionCount 0 0 (boardCellChar s.data) 0 = 0) ∧
    (validatePuzzle s = .error .MULTIPLE_SOLUTIONS ↔
      structOk s.data ∧ 2 ≤ getSolutionCount 0 0 (boardCellChar s.data) 0) ∧
    (validatePuzzle s = .ok true ↔
      structOk s.data ∧ getSolutionCount 0 0 (boardCellChar s.data) 0 = 1) ∧
    (∀ (α : Type) (rest : String → α) (e : CustomErrorEnum),
      validatePuzzle s = .error e → boardConstruct rest s = .error e) ∧
    (∀ (α : Type) (rest : String → α),
      validatePuzzle s = .ok true → boardConstruct rest s = .ok (rest s)) := by
  have hbind1 : ∀ (α : Type) (rest : String → α) (e : CustomErrorEnum),
      validatePuzzle s = .error e → boardConstruct rest s = .error e := by
    intro α rest e h
    unfold boardConstruct
    rw [h]
    rfl
  have hbind2 : ∀ (α : Type) (rest : String → α),
      validatePuzzle s = .ok true → boardConstruct rest s = .ok (rest s) := by
    intro α rest h
    unfold boardConstruct
    rw [h]
    rfl
  by_cases h1 : s.length = 81
  case neg =>
    have hv := validatePuzzle_run_len h1
    refine ⟨?_, ?_, ?_, ?_, ?_, ?_, ?_, ?_, ?_, hbind1, hbind2⟩ <;>
      simp [hv, structOk, h1]
  case pos =>
  by_cases h2 : charsOk s.data
  case neg =>
    have hv := validatePuzzle_run_chars h1 h2
    refine ⟨?_, ?_, ?_, ?_, ?_, ?_, ?_, ?_, ?_, hbind1, hbind2⟩ <;>
      simp [hv, structOk, h1, h2]
  case pos =>
  by_cases h3 : '0' ∈ s.data
  case neg =>
    have hv := validatePuzzle_run_solved h1 h2 h3
    refine ⟨?_, ?_, ?_, ?_, ?_, ?_, ?_, ?_, ?_, hbind1, hbind2⟩ <;>
      simp [hv, structOk, h1, h2, h3]
  case pos =>
  by_cases h4 : ∃ r < 9, hasDupIn (rowChars s.data r)
  case pos =>
    have hv := validatePuzzle_run_duprow h1 h2 h3 h4
    have h4n : ¬ (∀ r < 9, ¬ hasDupIn (rowChars s.data r)) := by
      push_neg
      exact h4
    refine ⟨?_, ?_, ?_, ?_, ?_, ?_, ?_, ?_, ?_, hbind1, hbind2⟩ <;>
      simp [hv, structOk, h1, h2, h3, h4, h4n]
  case neg =>
  have h4A : ∀ r < 9, ¬ hasDupIn (rowChars s.data r) := by
    push_neg at h4
    exact h4
  by_cases h5 : ∃ c < 9, hasDupIn (colChars s.data c)
  case pos =>
    have hv := validatePuzzle_run_dupcol h1 h2 h3 (by push_neg; exact h4A) h5
    have h5n : ¬ (∀ c < 9, ¬ hasDupIn (colChars s.data c)) := by
      push_neg
      exact h5
    refine ⟨?_, ?_, ?_, ?_, ?_, ?_, ?_, ?_, ?_, hbind1, hbind2⟩ <;>
      (simp [hv, structOk, h1, h2, h3, h4, h4A, h5, h5n]
       try exact h4A)
  case neg =>
  have h5A : ∀ c < 9, ¬ hasDupIn (colChars s.data c) := by
    push_neg at h5
    exact h5
  by_cases h6 : ∃ b < 9, hasDupIn (boxChars s.data b)
  case pos =>
    have hv := validatePuzzle_run_dupbox h1 h2 h3 (by push_neg; exact h4A)
      (by push_neg; exact h5A) h6
    have h6n : ¬ (∀ b < 9, ¬ hasDupIn (boxChars s.data b)) := by
      push_neg
      exact h6
    refine ⟨?_, ?_, ?_, ?_, ?_, ?_, ?_, ?_, ?_, hbind1, hbind2⟩ <;>
      (simp [hv, structOk, h1, h2, h3, h4, h4A, h5, h5A, h6, h6n]
       try exact h4A
       try exact h5A
       try exact ⟨h4A, h5A⟩)
  case neg =>
  have h6A : ∀ b < 9, ¬ hasDupIn (boxChars s.data b) := by
    push_neg at h6
    exact h6
  have hstruct : structOk s.data := ⟨h1, h2, h3, h4A, h5A, h6A⟩
  have hv := validatePuzzle_run_count h1 h2 h3 (by push_neg; exact h4A)
    (by push_neg; exact h5A) (by push_neg; exact h6A)
  by_cases h7 : getSolutionCount 0 0 (boardCellChar s.data) 0 = 0
  case pos =>
    have hv2 : validatePuzzle s = .error .UNSOLVABLE := by
      rw [hv, if_pos h7]
    refine ⟨?_, ?_, ?_, ?_, ?_, ?_, ?_, ?_, ?_, hbind1, hbind2⟩ <;>
      simp [hv2, hstruct, h1, h2, h3, h4, h5, h6, h7]
  case neg =>
  by_cases h8 : 1 < getSolutionCount 0 0 (boardCellChar s.data) 0
  case pos =>
    have hv2 : validatePuzzle s = .error .MULTIPLE_SOLUTIONS := by
      rw [hv, if_neg h7, if_pos h8]
    have h8A : 2 ≤ getSolutionCount 0 0 (boardCellChar s.data) 0 := h8
    have h9n : ¬ getSolutionCount 0 0 (boardCellChar s.data) 0 = 1 := by omega
    refine ⟨?_, ?_, ?_, ?_, ?_, ?_, ?_, ?_, ?_, hbind1, hbind2⟩ <;>
      simp [hv2, hstruct, h1, h2, h3, h4, h5, h6, h7, h8A, h9n]
  case neg =>
    have hv2 : validatePuzzle s = .ok true := by
      rw [hv, if_neg h7, if_neg h8]
    have h9A : getSolutionCount 0 0 (boardCellChar s.data) 0 = 1 := by omega
    have h8n : ¬ 2 ≤ getSolutionCount 0 0 (boardCellChar s.data) 0 := by omega
    refine ⟨?_, ?_, ?_, ?_, ?_, ?_, ?_, ?_, ?_, hbind1, hbind2⟩ <;>
      simp [hv2, hstruct, h1, h2, h3, h4, h5, h6, h7, h8n, h9A]

/-- C1 witness: the characterization applied to the empty string, whose
length is not 81, yields the invalid-board-length error. -/
theorem c1_validatePuzzle_error_spec_witness :
    validatePuzzle "" = .error .INVALID_BOARD_LENGTH :=
  (c1_validatePuzzle_error_spec "").1.mpr (by decide)


lemma filter_enum_ne_nil_iff (cells : List Cell) (subset U : Group) :
    (¬ (cells.enum.filter (fun p =>
        !(subset.containsNat p.1) && decide (0 < ((p.2).notes.inter U).getSize)) = [])) ↔
      ∃ k, ∃ hk : k < cells.length, subset.containsNat k = false ∧
        0 < ((cells[k]).notes.inter U).getSize := by
  constructor
  · intro h
    rw [List.eq_nil_iff_forall_not_mem] at h
    push_neg at h
    obtain ⟨⟨k, x⟩, hmem⟩ := h
    rw [List.mem_filter] at hmem
    obtain ⟨henum, hcond⟩ := hmem
    dsimp only at henum hcond
    rw [List.mem_enum_iff_getElem?] at henum
    dsimp only at henum
    obtain ⟨hk, hx⟩ := List.getElem?_eq_some.mp henum
    subst hx
    rw [Bool.and_eq_true] at hcond
    refine ⟨k, hk, ?_, ?_⟩
    · simpa using hcond.1
    · exact of_decide_eq_true hcond.2
  · rintro ⟨k, hk, hfalse, hpos⟩ hnil
    have hmem : ((k, cells[k]) : Nat × Cell) ∈ cells.enum.filter (fun p =>
        !(subset.containsNat p.1) && decide (0 < ((p.2).notes.inter U).getSize)) := by
      rw [List.mem_filter]
      refine ⟨?_, ?_⟩
      · rw [List.mem_enum_iff_getElem?]
        exact List.getElem?_eq_getElem hk
      · simp [hfalse, hpos]
    rw [hnil] at hmem
    exact absurd hmem (List.not_mem_nil _)

lemma getSize_eq_one_exists (U : Group) (h : U.getSize = 1) :
    ∃ v, ((List.finRange 9).filter (fun j => U.mem j)) = [v] ∧ U.mem v = true := by
  unfold Group.getSize at h
  obtain ⟨v, hv⟩ := List.length_eq_one.mp h
  refine ⟨v, hv, ?_⟩
  have hvm : v ∈ (List.finRange 9).filter (fun j => U.mem j) := by
    rw [hv]
    simp
  exact (List.mem_filter.mp hvm).2

/-- C2: isNakedSet, run on a fresh Strategy, identifies a naked set
exactly when the union of the selected cells' notes has exactly `tuple`
members and, additionally for tuple at least 2, at least one other cell
of the group shares a candidate of the set (a closed tuple with nothing
left to prune is not identified); for tuple = 1 it records the single
remaining candidate as the value to place at that cell, with the cell
itself as cause. -/
theorem c2_isNakedSet_spec (cb : CellBoard) (tuple group i : Nat)
    (cells : List Cell) (subset : Group)
    (hlen : (getSubsetOfCells cells subset).length = tuple) :
    (((isNakedSet cb tuple group i cells subset {}).2 = true) ↔
      ((getUnionOfSetNotes (getSubsetOfCells cells subset)).getSize = tuple ∧
       (tuple = 1 ∨ ∃ k, ∃ hk : k < cells.length, subset.containsNat k = false ∧
         0 < ((cells[k]).notes.inter
              (getUnionOfSetNotes (getSubsetOfCells cells subset))).getSize))) ∧
    (tuple = 1 →
      (isNakedSet cb tuple group i cells subset {}).2 = true →
      ∃ v : Fin 9,
        (getUnionOfSetNotes (getSubsetOfCells cells subset)).mem v = true ∧
        (isNakedSet cb tuple group i cells subset {}).1.values =
          [{ row := (getSubsetOfCells cells subset).headI.row,
             col := (getSubsetOfCells cells subset).headI.col,
             value := some v }] ∧
        (isNakedSet cb tuple group i cells subset {}).1.cause =
          [{ row := (getSubsetOfCells cells subset).headI.row,
             col := (getSubsetOfCells cells subset).headI.col }]) := by
  constructor
  · by_cases hU : (getUnionOfSetNotes (getSubsetOfCells cells subset)).getSize = tuple
    · by_cases h1 : tuple = 1
      · have heq2 : (isNakedSet cb tuple group i cells subset {}).2 = true := by
          unfold isNakedSet
          dsimp only
          rw [if_neg (by simp [hlen]), if_neg (by simp [hU]), if_pos h1]
        rw [heq2]
        exact iff_of_true rfl ⟨hU, Or.inl h1⟩
      · by_cases hp : (cells.enum.filter (fun p =>
            !(subset.containsNat p.1) && decide (0 <
              ((p.2).notes.inter
                (getUnionOfSetNotes (getSubsetOfCells cells subset))).getSize))) = []
        · have heq2 : (isNakedSet cb tuple group i cells subset {}).2 = false := by
            unfold isNakedSet
            dsimp only
            rw [if_neg (by simp [hlen]), if_neg (by simp [hU]), if_neg h1,
                if_pos (by simp [hp])]
          rw [heq2]
          refine iff_of_false (by simp) ?_
          rintro ⟨-, hor⟩
          rcases hor with h1x | hex
          · exact h1 h1x
          · exact (filter_enum_ne_nil_iff cells subset _).mpr hex hp
        · have heq2 : (isNakedSet cb tuple group i cells subset {}).2 = true := by
            unfold isNakedSet
            dsimp only
            rw [if_neg (by simp [hlen]), if_neg (by simp [hU]), if_neg h1,
                if_neg (by simp [hp])]
            split_ifs <;> rfl
          rw [heq2]
          exact iff_of_true rfl
            ⟨hU, Or.inr ((filter_enum_ne_nil_iff cells subset _).mp hp)⟩
    · have heq : isNakedSet cb tuple group i cells subset {} = ({}, false) := by
        unfold isNakedSet
        dsimp only
        rw [if_neg (by simp [hlen]), if_pos hU]
      rw [heq]
      refine iff_of_false (by simp) ?_
      rintro ⟨hU2, -⟩
      exact hU hU2
  · intro h1 htrue
    subst h1
    by_cases hU : (getUnionOfSetNotes (getSubsetOfCells cells subset)).getSize = 1
    · obtain ⟨v, hfil, hmemv⟩ := getSize_eq_one_exists _ hU
      refine ⟨v, hmemv, ?_, ?_⟩
      · have hval : (isNakedSet cb 1 group i cells subset {}).1.values =
            [{ row := (getSubsetOfCells cells subset).headI.row,
               col := (getSubsetOfCells cells subset).headI.col,
               value := ((List.finRange 9).filter (fun j =>
                 (getUnionOfSetNotes (getSubsetOfCells cells subset)).mem j)).getLast? }] := by
          unfold isNakedSet
          dsimp only
          rw [if_neg (by simp [hlen]), if_neg (by simp [hU]), if_pos rfl]
          rfl
        rw [hval, hfil]
        rfl
      · have hcause : (isNakedSet cb 1 group i cells subset {}).1.cause =
            [{ row := (getSubsetOfCells cells subset).headI.row,
               col := (getSubsetOfCells cells subset).headI.col }] := by
          unfold isNakedSet
          dsimp only
          rw [if_neg (by simp [hlen]), if_neg (by simp [hU]), if_pos rfl]
          rfl
        rw [hcause]
    · have heq : isNakedSet cb 1 group i cells subset {} = ({}, false) := by
        unfold isNakedSet
        dsimp only
        rw [if_neg (by simp [hlen]), if_pos hU]
      rw [heq] at htrue
      cases htrue

/-- C2 witness: a cell whose notes are pruned to the single candidate 9
(index 8) is identified as a naked single, and the recorded value to
place is that candidate. -/
theorem c2_isNakedSet_spec_witness :
    ((isNakedSet (CellBoard.ofCells (fun r c => { row := r, col := c })) 1 0 0
        [{ row := 0, col := 0, notes := ⟨fun j => j == 8, none, none⟩ }]
        ⟨fun j => j == 0, none, none⟩ {}).2 = true) ∧
    ((isNakedSet (CellBoard.ofCells (fun r c => { row := r, col := c })) 1 0 0
        [{ row := 0, col := 0, notes := ⟨fun j => j == 8, none, none⟩ }]
        ⟨fun j => j == 0, none, none⟩ {}).1.values =
      [{ row := 0, col := 0, value := some 8 }]) := by
  have h := c2_isNakedSet_spec (CellBoard.ofCells (fun r c => { row := r, col := c })) 1 0 0
      [{ row := 0, col := 0, notes := ⟨fun j => j == 8, none, none⟩ }]
      ⟨fun j => j == 0, none, none⟩ (by decide)
  have htrue := h.1.mpr ⟨by decide, Or.inl rfl⟩
  refine ⟨htrue, ?_⟩
  obtain ⟨v, hv, hval, hcause⟩ := h.2 rfl htrue
  have hall : ∀ w : Fin 9,
      (getUnionOfSetNotes (getSubsetOfCells
        [{ row := 0, col := 0, notes := ⟨fun j => j == 8, none, none⟩ }]
        ⟨fun j => j == 0, none, none⟩)).mem w = true → w = 8 := by decide
  rw [hval, hall v hv]
  rfl


/-- The board used to exhibit the naked-set difficulty slip: all cells
blank except that the detection below is fed a row with empty cells at
columns 0, 4 and 8. -/
def blankCellBoard : CellBoard :=
  CellBoard.ofCells (fun r c => { row := r, col := c })

/-- The empty cells handed to isNakedSet in the C5 scenario: the naked
pair on candidates 1,2 sits at columns 0 and 8 of row 0 (cells of one
row share the row coordinate), with a prunable cell at column 4. -/
def c5cells : List Cell :=
  [{ row := 0, col := 0, notes := ⟨fun j => j == 0 || j == 1, none, none⟩ },
   { row := 0, col := 4, notes := ⟨fun j => j == 0 || j == 5, none, none⟩ },
   { row := 0, col := 8, notes := ⟨fun j => j == 0 || j == 1, none, none⟩ }]

/-- C5 (code bug): the naked pair in row 0 spanning columns 0 and 8 —
the maximally scattered case along the row — is identified, yet the
recorded difficulty is the lower bound 40: for a row group the source
derives the distance ratio from the set cells' row coordinates (equal
within a row, hence always 0) instead of their column spread, while the
claimed interpolation lowerBound + ceil(spread/8 * (upper - lower))
yields the upper bound 60. -/
theorem c5_nakedSet_row_distance_bug :
    ((isNakedSet blankCellBoard 2 gROW 0 c5cells
        ⟨fun j => j == 0 || j == 2, none, none⟩ {}).2 = true) ∧
    ((isNakedSet blankCellBoard 2 gROW 0 c5cells
        ⟨fun j => j == 0 || j == 2, none, none⟩ {}).1.difficulty = some 40) ∧
    ((40 : Int) + Int.ceil ((((8 : ℚ) - 0) / 8) * (60 - 40)) = 60) := by
  refine ⟨by decide, ?_, by norm_num⟩
  have hhead : ((getSubsetOfCells c5cells
      ⟨fun j => j == 0 || j == 2, none, none⟩).headI).row = 0 := by decide
  have hlast : ((getSubsetOfCells c5cells
      ⟨fun j => j == 0 || j == 2, none, none⟩).getLastD default).row = 0 := by decide
  unfold isNakedSet
  dsimp only
  rw [if_neg (by decide), if_neg (by decide), if_neg (by decide), if_neg (by decide),
      if_pos (by decide : gROW ≠ gBOX), if_neg (by decide)]
  simp only [hhead, hlast]
  norm_num [getNakedSetDifficultyLowerBound, getNakedSetDifficultyUpperBound, gROW, gCOLUMN]


lemma hiddenFold_spec (l : List Cell) (nh : Group) (s : StratState) :
    (l.foldl (fun st c =>
      if 0 < (c.notes.inter nh).getSize then
        { st with
            notes := st.notes ++
              [((Group.ofBoolTagged false c.row c.col).insertG nh).1],
            identified := true }
      else st) s) =
    { s with
        notes := s.notes ++
          (l.filter (fun c => decide (0 < (c.notes.inter nh).getSize))).map
            (fun c => ((Group.ofBoolTagged false c.row c.col).insertG nh).1),
        identified :=
          (s.identified ||
            !(l.filter (fun c => decide (0 < (c.notes.inter nh).getSize))).isEmpty) } := by
  induction l generalizing s with
  | nil => simp
  | cons c t ih =>
    by_cases hc : 0 < (c.notes.inter nh).getSize
    · rw [List.foldl_cons, if_pos hc, ih]
      simp [hc]
    · rw [List.foldl_cons, if_neg hc, ih]
      simp [hc]

/-- C3 counterexample board: row 0 has empty cells at columns 0, 1, 2 —
the cell at (0,0) notes digits 9 and 5 (indexes 8 and 4), the others
note only indexes 0..2 — while digit 5 (index 4) is among the values
placed in the rest of the row, so index 4 is a note outside the
confined value-set but not among the other empty cells' remaining
candidates. -/
def c3cells : Nat → Nat → Cell := fun r c =>
  if r = 0 ∧ c = 0 then { row := 0, col := 0, notes := ⟨fun j => j == 8 || j == 4, none, none⟩ }
  else if r = 0 ∧ c = 1 then { row := 0, col := 1, notes := ⟨fun j => j == 0 || j == 1, none, none⟩ }
  else if r = 0 ∧ c = 2 then { row := 0, col := 2, notes := ⟨fun j => j == 1 || j == 2, none, none⟩ }
  else if r = 0 ∧ c = 3 then { row := 0, col := 3, value := some 3 }
  else if r = 0 ∧ c = 4 then { row := 0, col := 4, value := some 4 }
  else if r = 0 ∧ c = 5 then { row := 0, col := 5, value := some 5 }
  else if r = 0 ∧ c = 6 then { row := 0, col := 6, value := some 6 }
  else if r = 0 ∧ c = 7 then { row := 0, col := 7, value := some 7 }
  else if r = 0 ∧ c = 8 then { row := 0, col := 8, value := some 3 }
  else { row := r, col := c }

/-- The C3 counterexample cell board. -/
def c3cb : CellBoard := CellBoard.ofCells c3cells

/-- C3 counterexample: on the board `c3cb`, the singleton selection of
cell (0,0) in row 0 satisfies the claim's conditions — exactly one of
its candidates (index 8, digit 9) appears in no other empty cell of the
row, and the cell carries a note (index 4, digit 5, a value already
placed in the row) outside that confined value-set — yet isHiddenSet
does not identify it: the source demands a note shared with the other
empty cells' remaining candidates, not merely one outside the confined
set. -/
theorem c3_hiddenSet_claim_counterexample :
    ((isHiddenSet c3cb 1 gROW 0 (c3cb.getEmptyCellsInGroup gROW 0)
        ⟨fun j => j == 0, none, none⟩ {}).2 = false) ∧
    ((hsCand c3cb gROW 0 (c3cb.getEmptyCellsInGroup gROW 0) ⟨fun j => j == 0, none, none⟩).getSize -
      ((hsCand c3cb gROW 0 (c3cb.getEmptyCellsInGroup gROW 0) ⟨fun j => j == 0, none, none⟩).inter
        (nhsCand c3cb gROW 0 (c3cb.getEmptyCellsInGroup gROW 0) ⟨fun j => j == 0, none, none⟩)).getSize = 1) ∧
    (∃ c ∈ getSubsetOfCells (c3cb.getEmptyCellsInGroup gROW 0)
        ⟨fun j => j == 0, none, none⟩, ∃ j : Fin 9,
      c.notes.mem j = true ∧
      ((hsCand c3cb gROW 0 (c3cb.getEmptyCellsInGroup gROW 0) ⟨fun j => j == 0, none, none⟩).removeG
        (nhsCand c3cb gROW 0 (c3cb.getEmptyCellsInGroup gROW 0) ⟨fun j => j == 0, none, none⟩)).mem j = false) := by
  refine ⟨by decide, by decide, ?_⟩
  refine ⟨{ row := 0, col := 0, notes := ⟨fun j => j == 8 || j == 4, none, none⟩ },
    by decide, 4, by decide, by decide⟩


lemma isHiddenSet_run_cnt (cb : CellBoard) (tuple group i : Nat) (subset : Group)
    (hlen : (getSubsetOfCells (cb.getEmptyCellsInGroup group i) subset).length = tuple)
    (hcnt : ¬ ((hsCand cb group i (cb.getEmptyCellsInGroup group i) subset).getSize -
      ((hsCand cb group i (cb.getEmptyCellsInGroup group i) subset).inter
        (nhsCand cb group i (cb.getEmptyCellsInGroup group i) subset)).getSize = tuple)) :
    isHiddenSet cb tuple group i (cb.getEmptyCellsInGroup group i) subset {} = ({}, false) := by
  unfold isHiddenSet
  dsimp only
  rw [if_neg (by simp [hlen]), if_pos hcnt]

lemma isHiddenSet_run_nopush (cb : CellBoard) (tuple group i : Nat) (subset : Group)
    (hlen : (getSubsetOfCells (cb.getEmptyCellsInGroup group i) subset).length = tuple)
    (hcnt : (hsCand cb group i (cb.getEmptyCellsInGroup group i) subset).getSize -
      ((hsCand cb group i (cb.getEmptyCellsInGroup group i) subset).inter
        (nhsCand cb group i (cb.getEmptyCellsInGroup group i) subset)).getSize = tuple)
    (hnil : ((getSubsetOfCells (cb.getEmptyCellsInGroup group i) subset).filter
      (fun c => decide (0 < (c.notes.inter
        (nhsCand cb group i (cb.getEmptyCellsInGroup group i) subset)).getSize))) = []) :
    (isHiddenSet cb tuple group i (cb.getEmptyCellsInGroup group i) subset {}).2 = false := by
  unfold isHiddenSet
  dsimp only
  rw [if_neg (by simp [hlen]), if_neg (by simp [hcnt]), hiddenFold_spec,
      if_pos (by simp [hnil])]

lemma isHiddenSet_run_found (cb : CellBoard) (tuple group i : Nat) (subset : Group)
    (hlen : (getSubsetOfCells (cb.getEmptyCellsInGroup group i) subset).length = tuple)
    (hcnt : (hsCand cb group i (cb.getEmptyCellsInGroup group i) subset).getSize -
      ((hsCand cb group i (cb.getEmptyCellsInGroup group i) subset).inter
        (nhsCand cb group i (cb.getEmptyCellsInGroup group i) subset)).getSize = tuple)
    (hne : ¬ ((getSubsetOfCells (cb.getEmptyCellsInGroup group i) subset).filter
      (fun c => decide (0 < (c.notes.inter
        (nhsCand cb group i (cb.getEmptyCellsInGroup group i) subset)).getSize))) = []) :
    ((isHiddenSet cb tuple group i (cb.getEmptyCellsInGroup group i) subset {}).2 = true) ∧
    ((isHiddenSet cb tuple group i (cb.getEmptyCellsInGroup group i) subset {}).1.notes =
      ((getSubsetOfCells (cb.getEmptyCellsInGroup group i) subset).filter
        (fun c => decide (0 < (c.notes.inter
          (nhsCand cb group i (cb.getEmptyCellsInGroup group i) subset)).getSize))).map
        (fun c => ((Group.ofBoolTagged false c.row c.col).insertG
          (nhsCand cb group i (cb.getEmptyCellsInGroup group i) subset)).1)) ∧
    ((isHiddenSet cb tuple group i (cb.getEmptyCellsInGroup group i) subset {}).1.cause =
      (notHiddenSetOf (cb.getEmptyCellsInGroup group i) subset).map
        (fun c => ({ row := c.row, col := c.col } : Cell))) ∧
    ((isHiddenSet cb tuple group i (cb.getEmptyCellsInGroup group i) subset {}).1.groups =
      [(group, i)]) := by
  unfold isHiddenSet
  dsimp only
  rw [if_neg (by simp [hlen]), if_neg (by simp [hcnt]), hiddenFold_spec,
      if_neg (by simp [hne])]
  split_ifs <;> exact ⟨rfl, rfl, rfl, rfl⟩

/-- C3 amended: isHiddenSet, run on a fresh Strategy over the empty
cells of a group, identifies a hidden set exactly when, with the group's
placed values excluded on both sides, exactly `tuple` of the selection's
candidates appear in no other empty cell of the group AND at least one
selected cell shares a note with the other empty cells' remaining
candidates; on identification, each such cell gets one removal entry
holding exactly those remaining other-cell candidates, the cause lists
exactly the group's other empty cells, and exactly one
(group kind, index) pair is recorded. -/
theorem c3_isHiddenSet_amended (cb : CellBoard) (tuple group i : Nat) (subset : Group)
    (hlen : (getSubsetOfCells (cb.getEmptyCellsInGroup group i) subset).length = tuple) :
    (((isHiddenSet cb tuple group i (cb.getEmptyCellsInGroup group i) subset {}).2 = true) ↔
      ((hsCand cb group i (cb.getEmptyCellsInGroup group i) subset).getSize -
        ((hsCand cb group i (cb.getEmptyCellsInGroup group i) subset).inter
          (nhsCand cb group i (cb.getEmptyCellsInGroup group i) subset)).getSize = tuple ∧
       ∃ c ∈ getSubsetOfCells (cb.getEmptyCellsInGroup group i) subset,
         0 < (c.notes.inter
           (nhsCand cb group i (cb.getEmptyCellsInGroup group i) subset)).getSize)) ∧
    ((isHiddenSet cb tuple group i (cb.getEmptyCellsInGroup group i) subset {}).2 = true →
      ((isHiddenSet cb tuple group i (cb.getEmptyCellsInGroup group i) subset {}).1.notes =
        ((getSubsetOfCells (cb.getEmptyCellsInGroup group i) subset).filter
          (fun c => decide (0 < (c.notes.inter
            (nhsCand cb group i (cb.getEmptyCellsInGroup group i) subset)).getSize))).map
          (fun c => ((Group.ofBoolTagged false c.row c.col).insertG
            (nhsCand cb group i (cb.getEmptyCellsInGroup group i) subset)).1) ∧
       (isHiddenSet cb tuple group i (cb.getEmptyCellsInGroup group i) subset {}).1.cause =
         (notHiddenSetOf (cb.getEmptyCellsInGroup group i) subset).map
           (fun c => ({ row := c.row, col := c.col } : Cell)) ∧
       (isHiddenSet cb tuple group i (cb.getEmptyCellsInGroup group i) subset {}).1.groups =
         [(group, i)])) := by
  constructor
  · by_cases hcnt : (hsCand cb group i (cb.getEmptyCellsInGroup group i) subset).getSize -
        ((hsCand cb group i (cb.getEmptyCellsInGroup group i) subset).inter
          (nhsCand cb group i (cb.getEmptyCellsInGroup group i) subset)).getSize = tuple
    · by_cases hex : ∃ c ∈ getSubsetOfCells (cb.getEmptyCellsInGroup group i) subset,
          0 < (c.notes.inter
            (nhsCand cb group i (cb.getEmptyCellsInGroup group i) subset)).getSize
      · obtain ⟨c, hc, hpos⟩ := hex
        have hne : ¬ ((getSubsetOfCells (cb.getEmptyCellsInGroup group i) subset).filter
            (fun c => decide (0 < (c.notes.inter
              (nhsCand cb group i (cb.getEmptyCellsInGroup group i) subset)).getSize))) = [] := by
          intro hnil
          have hmem : c ∈ (getSubsetOfCells (cb.getEmptyCellsInGroup group i) subset).filter
              (fun c => decide (0 < (c.notes.inter
                (nhsCand cb group i (cb.getEmptyCellsInGroup group i) subset)).getSize)) :=
            List.mem_filter.mpr ⟨hc, by simp [hpos]⟩
          rw [hnil] at hmem
          exact absurd hmem (List.not_mem_nil _)
        exact iff_of_true (isHiddenSet_run_found cb tuple group i subset hlen hcnt hne).1
          ⟨hcnt, c, hc, hpos⟩
      · have hnil : ((getSubsetOfCells (cb.getEmptyCellsInGroup group i) subset).filter
            (fun c => decide (0 < (c.notes.inter
              (nhsCand cb group i (cb.getEmptyCellsInGroup group i) subset)).getSize))) = [] := by
          rw [List.filter_eq_nil_iff]
          intro c hc
          simp only [decide_eq_true_eq]
          exact fun hpos => hex ⟨c, hc, hpos⟩
        refine iff_of_false ?_ ?_
        · rw [isHiddenSet_run_nopush cb tuple group i subset hlen hcnt hnil]
          simp
        · rintro ⟨-, hex2⟩
          exact hex hex2
    · rw [isHiddenSet_run_cnt cb tuple group i subset hlen hcnt]
      refine iff_of_false (by simp) ?_
      rintro ⟨hc1, -⟩
      exact hcnt hc1
  · intro htrue
    by_cases hcnt : (hsCand cb group i (cb.getEmptyCellsInGroup group i) subset).getSize -
        ((hsCand cb group i (cb.getEmptyCellsInGroup group i) subset).inter
          (nhsCand cb group i (cb.getEmptyCellsInGroup group i) subset)).getSize = tuple
    · by_cases hnil : ((getSubsetOfCells (cb.getEmptyCellsInGroup group i) subset).filter
          (fun c => decide (0 < (c.notes.inter
            (nhsCand cb group i (cb.getEmptyCellsInGroup group i) subset)).getSize))) = []
      · rw [isHiddenSet_run_nopush cb tuple group i subset hlen hcnt hnil] at htrue
        cases htrue
      · have h := isHiddenSet_run_found cb tuple group i subset hlen hcnt hnil
        exact ⟨h.2.1, h.2.2.1, h.2.2.2⟩
    · rw [isHiddenSet_run_cnt cb tuple group i subset hlen hcnt] at htrue
      cases htrue

/-- The board for the C3 witness: every cell of row 0 is empty; cell
(0,0) holds all nine notes while the other eight have had the digit 9
(index 8) removed, giving a hidden single on 9 at (0,0). -/
def c3wcells : Nat → Nat → Cell := fun r c =>
  if r = 0 ∧ c = 0 then { row := 0, col := 0, notes := ⟨fun _ => true, none, none⟩ }
  else if r = 0 then { row := 0, col := c, notes := ⟨fun j => !(j == 8), none, none⟩ }
  else { row := r, col := c }

/-- C3 witness: the amended characterization applied to the hidden
single on digit 9 in row 0 of `c3wcells` identifies it. -/
theorem c3_isHiddenSet_amended_witness :
    (isHiddenSet (CellBoard.ofCells c3wcells) 1 gROW 0
      ((CellBoard.ofCells c3wcells).getEmptyCellsInGroup gROW 0)
      ⟨fun j => j == 0, none, none⟩ {}).2 = true :=
  (c3_isHiddenSet_amended (CellBoard.ofCells c3wcells) 1 gROW 0
    ⟨fun j => j == 0, none, none⟩ (by decide)).1.mpr
    ⟨by decide,
     { row := 0, col := 0, notes := ⟨fun _ => true, none, none⟩ },
     by decide, by decide⟩


/-- MAX_GAME_LENGTH_MODIFIER (Board.ts). -/
def MAX_GAME_LENGTH_MODIFIER : ℚ := 70

/-- GAME_LENGTH_DIFFICULTY_MULTIPLIER (Board.ts), the exact value of the
source's 0.02. -/
def GAME_LENGTH_DIFFICULTY_MULTIPLIER : ℚ := 2 / 100

/-- The numeric members of DifficultyUpperBounds (Strategy.ts), in
declaration order, over which getMaxDifficulty folds. -/
def upperBoundsValues : List Int :=
  [10, 10, 40, 60, 90, 140, 140, 200, 300, 450, 10]

/-- Strategy.getMaxDifficulty: the largest difficulty upper bound,
starting from DifficultyUpperBounds.SIMPLIFY_NOTES = 10. -/
def getMaxDifficultyVal : Int := upperBoundsValues.foldl (fun m v => max m v) 10

/-- MAX_DIFFICULTY (Strategy.ts). -/
def MAX_DIFFICULTY : Int := getMaxDifficultyVal

/-- Board.getMaxGameDifficulty. -/
def getMaxGameDifficulty (hardest : ℚ) : ℚ :=
  hardest * (1 + MAX_GAME_LENGTH_MODIFIER * GAME_LENGTH_DIFFICULTY_MULTIPLIER)

/-- MAX_GAME_DIFFICULTY (Board.ts) = 450 * 2.4 = 1080. -/
def MAX_GAME_DIFFICULTY : ℚ := getMaxGameDifficulty (MAX_DIFFICULTY : ℚ)

/-- The three strategies Board.solve counts as simple (amend notes,
simplify notes, naked single). -/
def isSimpleStrategy (t : Nat) : Bool :=
  t = sAMEND_NOTES || t = sSIMPLIFY_NOTES || t = sNAKED_SINGLE

/-- The arithmetic of Board.solve lines 241-268: given the number of
standard-strategy steps, the number of simple steps, the accumulated
standard-step difficulty and the first simple step's difficulty, plus
the Math.random() draw r, compute the final difficulty.  Real arithmetic
is embedded exactly over ℚ; Math.ceil is Int.ceil, Math.min is min. -/
def difficultyFormula (strategyStepCount simpleLen : Nat) (accumulated simpleDifficulty : Int)
    (r : ℚ) : Int :=
  let simpleStepCount : Int := Int.ceil ((simpleLen : ℚ) / 70)
  let stepCount : Int := (strategyStepCount : Int) + simpleStepCount
  let d1 : ℚ := (accumulated : ℚ) + (simpleStepCount : ℚ) * (simpleDifficulty : ℚ)
  let d2 : ℚ := d1 / (stepCount : ℚ)
  let lengthMod : ℚ :=
    min ((strategyStepCount : ℚ) * (14 / 10) + (simpleStepCount : ℚ) * 12 - 30)
      MAX_GAME_LENGTH_MODIFIER
  let d3 : Int := Int.ceil (d2 * (1 + lengthMod * GAME_LENGTH_DIFFICULTY_MULTIPLIER))
  let d4 : ℚ := min MAX_GAME_DIFFICULTY ((d3 : ℚ) * (r * 4))
  Int.ceil (1000 * (d4 / MAX_GAME_DIFFICULTY))

/-- Board.solve, difficulty side: the hint stream produced by the Solver
(Solver.ts is outside the reviewed sources) is abstracted as the list of
(strategy type, step difficulty) pairs in solve order; the loop of lines
223-240 classifies each step as simple or standard, counts them,
accumulates the standard difficulties, and keeps the first simple step's
difficulty, after which `difficultyFormula` applies.  When no simple
step exists the source's simpleDifficulty stays undefined (NaN
arithmetic); that corner is embedded as 0 and excluded by the theorems'
hypothesis that a simple step occurs. -/
def solveDifficulty (steps : List (Nat × Int)) (r : ℚ) : Int :=
  difficultyFormula
    (steps.filter (fun h => !(isSimpleStrategy h.1))).length
    (steps.filter (fun h => isSimpleStrategy h.1)).length
    ((steps.filter (fun h => !(isSimpleStrategy h.1))).foldl (fun a h => a + h.2) 0)
    (((steps.filter (fun h => isSimpleStrategy h.1)).head?.map (fun h => h.2)).getD 0)
    r

lemma MAX_GAME_DIFFICULTY_eq : MAX_GAME_DIFFICULTY = 1080 := by
  have h450 : MAX_DIFFICULTY = 450 := by decide
  unfold MAX_GAME_DIFFICULTY getMaxGameDifficulty MAX_GAME_LENGTH_MODIFIER
    GAME_LENGTH_DIFFICULTY_MULTIPLIER
  rw [h450]
  norm_num

lemma foldl_add_bound (l : List (Nat × Int)) (b : Int) (hb : ∀ x ∈ l, b ≤ x.2) :
    ∀ init : Int, init + b * l.length ≤ l.foldl (fun a h => a + h.2) init := by
  induction l with
  | nil => intro init; simp
  | cons x t ih =>
    intro init
    have hx : b ≤ x.2 := hb x (by simp)
    have ht : ∀ y ∈ t, b ≤ y.2 := fun y hy => hb y (by simp [hy])
    have := ih ht (init + x.2)
    rw [List.foldl_cons]
    have hlen : ((x :: t).length : Int) = (t.length : Int) + 1 := by
      push_cast [List.length_cons]
      ring
    calc init + b * ((x :: t).length : Int)
        = (init + b) + b * (t.length : Int) := by rw [hlen]; ring
      _ ≤ (init + x.2) + b * (t.length : Int) := by omega
      _ ≤ t.foldl (fun a h => a + h.2) (init + x.2) := this

lemma difficultyFormula_range (n sLen : Nat) (acc sd : Int) (r : ℚ)
    (hs : 1 ≤ sLen) (hacc : 0 ≤ acc) (hsd : 0 ≤ sd) (hr0 : 0 ≤ r) :
    0 ≤ difficultyFormula n sLen acc sd r ∧ difficultyFormula n sLen acc sd r ≤ 1000 := by
  unfold difficultyFormula MAX_GAME_LENGTH_MODIFIER GAME_LENGTH_DIFFICULTY_MULTIPLIER
  rw [MAX_GAME_DIFFICULTY_eq]
  dsimp only
  have hceil1 : (1 : Int) ≤ Int.ceil ((sLen : ℚ) / 70) := by
    have hpos : (0 : ℚ) < (sLen : ℚ) / 70 := by
      apply div_pos _ (by norm_num)
      exact_mod_cast Nat.lt_of_lt_of_le Nat.zero_lt_one hs
    exact Int.ceil_pos.mpr hpos
  have hsc : (0 : Int) < (n : Int) + Int.ceil ((sLen : ℚ) / 70) := by
    have hn : (0 : Int) ≤ (n : Int) := Int.natCast_nonneg n
    omega
  have hscQ : (0 : ℚ) < (((n : Int) + Int.ceil ((sLen : ℚ) / 70) : Int) : ℚ) := by
    exact_mod_cast hsc
  have hceilQ : (0 : ℚ) ≤ ((Int.ceil ((sLen : ℚ) / 70) : Int) : ℚ) := by
    exact_mod_cast (by omega : (0 : Int) ≤ Int.ceil ((sLen : ℚ) / 70))
  have hd1 : (0 : ℚ) ≤ (acc : ℚ) + ((Int.ceil ((sLen : ℚ) / 70) : Int) : ℚ) * (sd : ℚ) := by
    have h2 : (0 : ℚ) ≤ (acc : ℚ) := by exact_mod_cast hacc
    have h3 : (0 : ℚ) ≤ (sd : ℚ) := by exact_mod_cast hsd
    have := mul_nonneg hceilQ h3
    linarith
  have hd2 : (0 : ℚ) ≤ ((acc : ℚ) + ((Int.ceil ((sLen : ℚ) / 70) : Int) : ℚ) * (sd : ℚ)) /
      (((n : Int) + Int.ceil ((sLen : ℚ) / 70) : Int) : ℚ) :=
    div_nonneg hd1 (le_of_lt hscQ)
  have hmodlo : (-18 : ℚ) ≤
      min ((n : ℚ) * (14 / 10) + ((Int.ceil ((sLen : ℚ) / 70) : Int) : ℚ) * 12 - 30) 70 := by
    apply le_min _ (by norm_num)
    have hn : (0 : ℚ) ≤ (n : ℚ) := Nat.cast_nonneg n
    have hc1 : (1 : ℚ) ≤ ((Int.ceil ((sLen : ℚ) / 70) : Int) : ℚ) := by
      exact_mod_cast hceil1
    nlinarith
  have hmodhi :
      min ((n : ℚ) * (14 / 10) + ((Int.ceil ((sLen : ℚ) / 70) : Int) : ℚ) * 12 - 30) 70 ≤ 70 :=
    min_le_right _ _
  have hmultpos : (0 : ℚ) < 1 +
      min ((n : ℚ) * (14 / 10) + ((Int.ceil ((sLen : ℚ) / 70) : Int) : ℚ) * 12 - 30) 70 *
        (2 / 100) := by
    nlinarith
  have hd3 : (0 : Int) ≤ Int.ceil
      ((((acc : ℚ) + ((Int.ceil ((sLen : ℚ) / 70) : Int) : ℚ) * (sd : ℚ)) /
        (((n : Int) + Int.ceil ((sLen : ℚ) / 70) : Int) : ℚ)) *
       (1 + min ((n : ℚ) * (14 / 10) + ((Int.ceil ((sLen : ℚ) / 70) : Int) : ℚ) * 12 - 30) 70 *
        (2 / 100))) := by
    apply Int.ceil_nonneg
    exact mul_nonneg hd2 (le_of_lt hmultpos)
  constructor
  · apply Int.ceil_nonneg
    apply mul_nonneg (by norm_num)
    apply div_nonneg _ (by norm_num)
    apply le_min (by norm_num)
    apply mul_nonneg _ (mul_nonneg hr0 (by norm_num))
    exact_mod_cast hd3
  · have key : ∀ X : ℚ, (1000 : ℚ) * (min 1080 X / 1080) ≤ 1000 := by
      intro X
      have hmin : min (1080 : ℚ) X ≤ 1080 := min_le_left _ _
      have hq : min (1080 : ℚ) X / 1080 ≤ 1 := (div_le_one (by norm_num)).mpr hmin
      linarith
    rw [Int.ceil_le]
    push_cast
    exact key _


lemma difficultyFormula_pos (n sLen : Nat) (acc sd : Int) (r : ℚ)
    (hs : 1 ≤ sLen) (hacc : 10 * (n : Int) ≤ acc) (hsd : 10 ≤ sd) (hr : 0 < r) :
    1 ≤ difficultyFormula n sLen acc sd r := by
  unfold difficultyFormula MAX_GAME_LENGTH_MODIFIER GAME_LENGTH_DIFFICULTY_MULTIPLIER
  rw [MAX_GAME_DIFFICULTY_eq]
  dsimp only
  have hceil1 : (1 : Int) ≤ Int.ceil ((sLen : ℚ) / 70) := by
    have hpos : (0 : ℚ) < (sLen : ℚ) / 70 := by
      apply div_pos _ (by norm_num)
      exact_mod_cast Nat.lt_of_lt_of_le Nat.zero_lt_one hs
    exact Int.ceil_pos.mpr hpos
  have hsc : (0 : Int) < (n : Int) + Int.ceil ((sLen : ℚ) / 70) := by
    have hn : (0 : Int) ≤ (n : Int) := Int.natCast_nonneg n
    omega
  have hscQ : (0 : ℚ) < (((n : Int) + Int.ceil ((sLen : ℚ) / 70) : Int) : ℚ) := by
    exact_mod_cast hsc
  have hc1 : (1 : ℚ) ≤ ((Int.ceil ((sLen : ℚ) / 70) : Int) : ℚ) := by
    exact_mod_cast hceil1
  have hnQ : (0 : ℚ) ≤ (n : ℚ) := Nat.cast_nonneg n
  have hd1 : 10 * (((n : Int) + Int.ceil ((sLen : ℚ) / 70) : Int) : ℚ) ≤
      (acc : ℚ) + ((Int.ceil ((sLen : ℚ) / 70) : Int) : ℚ) * (sd : ℚ) := by
    have haccQ : 10 * (n : ℚ) ≤ (acc : ℚ) := by exact_mod_cast hacc
    have hsdQ : (10 : ℚ) ≤ (sd : ℚ) := by exact_mod_cast hsd
    have hcmul : 10 * ((Int.ceil ((sLen : ℚ) / 70) : Int) : ℚ) ≤
        ((Int.ceil ((sLen : ℚ) / 70) : Int) : ℚ) * (sd : ℚ) := by
      nlinarith
    push_cast
    linarith
  have hd2 : (10 : ℚ) ≤ ((acc : ℚ) + ((Int.ceil ((sLen : ℚ) / 70) : Int) : ℚ) * (sd : ℚ)) /
      (((n : Int) + Int.ceil ((sLen : ℚ) / 70) : Int) : ℚ) := by
    rw [le_div_iff₀ hscQ]
    linarith
  have hmodlo : (-18 : ℚ) ≤
      min ((n : ℚ) * (14 / 10) + ((Int.ceil ((sLen : ℚ) / 70) : Int) : ℚ) * 12 - 30) 70 := by
    apply le_min _ (by norm_num)
    nlinarith
  have hmultpos : (0 : ℚ) < 1 +
      min ((n : ℚ) * (14 / 10) + ((Int.ceil ((sLen : ℚ) / 70) : Int) : ℚ) * 12 - 30) 70 *
        (2 / 100) := by
    nlinarith
  have hd3 : (1 : Int) ≤ Int.ceil
      ((((acc : ℚ) + ((Int.ceil ((sLen : ℚ) / 70) : Int) : ℚ) * (sd : ℚ)) /
        (((n : Int) + Int.ceil ((sLen : ℚ) / 70) : Int) : ℚ)) *
       (1 + min ((n : ℚ) * (14 / 10) + ((Int.ceil ((sLen : ℚ) / 70) : Int) : ℚ) * 12 - 30) 70 *
        (2 / 100))) := by
    apply Int.ceil_pos.mpr
    exact mul_pos (lt_of_lt_of_le (by norm_num) hd2) hmultpos
  apply Int.ceil_pos.mpr
  apply mul_pos (by norm_num)
  apply div_pos _ (by norm_num)
  apply lt_min (by norm_num)
  apply mul_pos _ (mul_pos hr (by norm_num))
  exact_mod_cast lt_of_lt_of_le Int.zero_lt_one hd3


/-- C4 counterexample: when Math.random() returns 0 (a value it can
attain), a puzzle solved by a single amend-notes step gets difficulty 0,
violating the claimed lower bound of 1: the multiplicative noise
`difficulty *= Math.random() * 4` zeroes the score before the final
normalization. -/
theorem c4_difficulty_counterexample : solveDifficulty [(sAMEND_NOTES, 10)] 0 = 0 := by
  have h : solveDifficulty [(sAMEND_NOTES, 10)] 0 = difficultyFormula 0 1 0 10 0 := rfl
  rw [h]
  unfold difficultyFormula
  rw [MAX_GAME_DIFFICULTY_eq]
  dsimp only
  norm_num

/-- C4 (amended): for every hint stream containing at least one simple
step and only non-negative step difficulties, and every noise value
r ≥ 0, the final difficulty lies in [0, 1000] (clamped at the maximum
game difficulty 1080 before normalizing to the 1000 scale); the claimed
lower bound 1 additionally requires a strictly positive noise draw and
every step difficulty at least 10 (which every DifficultyLowerBounds
entry satisfies). -/
theorem c4_difficulty_range_amended (steps : List (Nat × Int)) (r : ℚ)
    (hsimple : ∃ p ∈ steps, isSimpleStrategy p.1 = true)
    (hpos : ∀ p ∈ steps, 0 ≤ p.2) (hr0 : 0 ≤ r) :
    (0 ≤ solveDifficulty steps r ∧ solveDifficulty steps r ≤ 1000) ∧
    (0 < r → (∀ p ∈ steps, 10 ≤ p.2) → 1 ≤ solveDifficulty steps r) := by
  obtain ⟨p0, hmem, hsimp0⟩ := hsimple
  have hmemS : p0 ∈ steps.filter (fun h => isSimpleStrategy h.1) :=
    List.mem_filter.mpr ⟨hmem, hsimp0⟩
  have hsLen : 1 ≤ (steps.filter (fun h => isSimpleStrategy h.1)).length :=
    List.length_pos.mpr (List.ne_nil_of_mem hmemS)
  obtain ⟨hd, tl, hcons⟩ := List.exists_cons_of_ne_nil (List.ne_nil_of_mem hmemS)
  have hhdmem : hd ∈ steps := by
    have hx : hd ∈ steps.filter (fun h => isSimpleStrategy h.1) := by
      rw [hcons]; exact List.mem_cons_self _ _
    exact List.mem_of_mem_filter hx
  have hsd : (((steps.filter (fun h => isSimpleStrategy h.1)).head?.map
      (fun h => h.2)).getD 0) = hd.2 := by
    rw [hcons]; rfl
  have haccmem : ∀ x ∈ steps.filter (fun h => !(isSimpleStrategy h.1)), (0 : Int) ≤ x.2 :=
    fun x hx => hpos x (List.mem_of_mem_filter hx)
  have hacc0 : (0 : Int) ≤ (steps.filter (fun h => !(isSimpleStrategy h.1))).foldl
      (fun a h => a + h.2) 0 := by
    have hb := foldl_add_bound _ 0 haccmem 0
    simpa using hb
  unfold solveDifficulty
  rw [hsd]
  refine ⟨difficultyFormula_range _ _ _ _ r hsLen hacc0 (hpos hd hhdmem) hr0, ?_⟩
  intro hrpos h10
  have hacc10 : 10 * (((steps.filter (fun h => !(isSimpleStrategy h.1))).length : Int)) ≤
      (steps.filter (fun h => !(isSimpleStrategy h.1))).foldl (fun a h => a + h.2) 0 := by
    have hb := foldl_add_bound (steps.filter (fun h => !(isSimpleStrategy h.1))) 10
      (fun x hx => h10 x (List.mem_of_mem_filter hx)) 0
    simpa using hb
  exact difficultyFormula_pos _ _ _ _ r hsLen hacc10 (h10 hd hhdmem) hrpos

theorem c4_difficulty_range_amended_witness :
    (0 ≤ solveDifficulty [(sAMEND_NOTES, 10), (sNAKED_PAIR, 40)] (1 / 2) ∧
     solveDifficulty [(sAMEND_NOTES, 10), (sNAKED_PAIR, 40)] (1 / 2) ≤ 1000) ∧
    (0 < (1 / 2 : ℚ) →
     (∀ p ∈ [(sAMEND_NOTES, 10), (sNAKED_PAIR, 40)], (10 : Int) ≤ p.2) →
     1 ≤ solveDifficulty [(sAMEND_NOTES, 10), (sNAKED_PAIR, 40)] (1 / 2)) :=
  c4_difficulty_range_amended _ _ ⟨(sAMEND_NOTES, 10), by decide, by decide⟩
    (by decide) (by norm_num)


/-- One cascading step of Board.getPrereqs: if the running strategy
variable equals one of `tests`, push `next` onto the prereq list and set
the running strategy to `next` (Board.ts lines 167-209; each source
`if (strategy === A || strategy === B)` block is one step with
tests = [A, B]). -/
def chainStep (tests : List Nat) (next : Nat) (st : List Nat × Nat) : List Nat × Nat :=
  if st.2 ∈ tests then (st.1 ++ [next], next) else st

/-- Board.getPrereqs: the fixed prerequisite chain of a strategy,
produced by the cascading if-chain of Board.ts lines 167-209. -/
def getPrereqs (strategy : Nat) : List Nat :=
  (chainStep [sNAKED_PAIR, sHIDDEN_SINGLE] sNAKED_SINGLE
    (chainStep [sPOINTING_PAIR] sHIDDEN_SINGLE
      (chainStep [sPOINTING_TRIPLET] sPOINTING_PAIR
        (chainStep [sNAKED_TRIPLET, sHIDDEN_PAIR] sNAKED_PAIR
          (chainStep [sNAKED_QUADRUPLET, sHIDDEN_TRIPLET] sNAKED_TRIPLET
            (chainStep [sNAKED_QUINTUPLET, sHIDDEN_QUADRUPLET] sNAKED_QUADRUPLET
              (chainStep [sNAKED_SEXTUPLET, sHIDDEN_QUINTUPLET] sNAKED_QUINTUPLET
                (chainStep [sNAKED_SEPTUPLET, sHIDDEN_SEXTUPLET] sNAKED_SEXTUPLET
                  (chainStep [sNAKED_OCTUPLET, sHIDDEN_SEPTUPLET] sNAKED_SEPTUPLET
                    (chainStep [sHIDDEN_OCTUPLET] sNAKED_OCTUPLET
                      ([], strategy))))))))))).1

/-- this.strategies[j] = true as a functional update on the used-flags
array of Board.solve. -/
def setTrue (flags : Nat → Bool) (j : Nat) : Nat → Bool :=
  fun t => if t = j then true else flags t

/-- The inner for-loop of Board.solve lines 253-255: mark every prereq. -/
def addPrereqs (flags : Nat → Bool) (ps : List Nat) : Nat → Bool :=
  ps.foldl setTrue flags

/-- The prereq-closure pass of Board.solve lines 250-257: for i from 0
to StrategyEnum.COUNT - 1, if strategies[i] is set, set the flag of
every element of getPrereqs(i). -/
def closurePass (flags : Nat → Bool) : Nat → Bool :=
  (List.range sCOUNT).foldl
    (fun f i => if f i then addPrereqs f (getPrereqs i) else f) flags

lemma addPrereqs_spec (ps : List Nat) : ∀ (f : Nat → Bool) (t : Nat),
    addPrereqs f ps t = true ↔ f t = true ∨ t ∈ ps := by
  induction ps with
  | nil => intro f t; simp [addPrereqs]
  | cons p ps ih =>
    intro f t
    have h := ih (setTrue f p) t
    simp only [addPrereqs, List.foldl_cons] at h ⊢
    rw [h]
    by_cases hp : t = p <;> simp [setTrue, hp]

lemma closureFold_char (L : List Nat) (hL : L.Pairwise (· < ·))
    (hdown : ∀ j ∈ L, ∀ p ∈ getPrereqs j, p < j) :
    ∀ (f : Nat → Bool) (t : Nat),
    (L.foldl (fun f i => if f i then addPrereqs f (getPrereqs i) else f) f) t = true ↔
      f t = true ∨ ∃ j ∈ L, f j = true ∧ t ∈ getPrereqs j := by
  induction L with
  | nil => intro f t; simp
  | cons i L ih =>
    intro f t
    have hlt : ∀ j ∈ L, i < j := fun j hj => (List.pairwise_cons.mp hL).1 j hj
    have hL2 : L.Pairwise (· < ·) := (List.pairwise_cons.mp hL).2
    have hdown2 : ∀ j ∈ L, ∀ p ∈ getPrereqs j, p < j :=
      fun j hj => hdown j (List.mem_cons_of_mem i hj)
    rw [List.foldl_cons]
    rw [ih hL2 hdown2]
    have hstep : ∀ u : Nat, ((if f i = true then addPrereqs f (getPrereqs i) else f) u = true) ↔
        (f u = true ∨ (f i = true ∧ u ∈ getPrereqs i)) := by
      intro u
      by_cases hfi : f i = true
      · rw [if_pos hfi, addPrereqs_spec]
        simp [hfi]
      · rw [if_neg hfi]
        simp [hfi]
    have hfix : ∀ j ∈ L, ((if f i = true then addPrereqs f (getPrereqs i) else f) j = true) ↔
        f j = true := by
      intro j hj
      rw [hstep j]
      have : j ∉ getPrereqs i := fun hmem =>
        absurd (hdown i (List.mem_cons_self i L) j hmem) (Nat.not_lt.mpr (le_of_lt (hlt j hj)))
      simp only [this, and_false, or_false]
    constructor
    · rintro (h1 | ⟨j, hjL, hfj, htj⟩)
      · rcases (hstep t).mp h1 with h | ⟨hfi, hti⟩
        · exact Or.inl h
        · exact Or.inr ⟨i, List.mem_cons_self i L, hfi, hti⟩
      · exact Or.inr ⟨j, List.mem_cons_of_mem i hjL, (hfix j hjL).mp hfj, htj⟩
    · rintro (h1 | ⟨j, hjL, hfj, htj⟩)
      · exact Or.inl ((hstep t).mpr (Or.inl h1))
      · rcases List.mem_cons.mp hjL with rfl | hjL2
        · exact Or.inl ((hstep t).mpr (Or.inr ⟨hfj, htj⟩))
        · exact Or.inr ⟨j, hjL2, (hfix j hjL2).mpr hfj, htj⟩

lemma getPrereqs_downward : ∀ j ∈ List.range sCOUNT, ∀ p ∈ getPrereqs j, p < j := by
  decide

lemma getPrereqs_trans :
    ∀ i ∈ List.range sCOUNT, ∀ p ∈ getPrereqs i, ∀ q ∈ getPrereqs p, q ∈ getPrereqs i := by
  decide

lemma range_pairwise_lt : (List.range sCOUNT).Pairwise (· < ·) := by decide

/-- C7: after the prereq-closure pass of Board.solve, the used-strategy
flags are closed under Board.getPrereqs: whenever a technique t (a valid
index below StrategyEnum.COUNT) ends up flagged, so does every member of
its fixed prerequisite chain — each naked tuple implies all smaller
naked tuples down to naked single, hidden-N implies naked-N and its
chain, and pointing pair/triplet imply hidden single and naked single. -/
theorem c7_prereq_closure (flags : Nat → Bool) (t p : Nat) (ht24 : t < sCOUNT)
    (ht : closurePass flags t = true) (hp : p ∈ getPrereqs t) :
    closurePass flags p = true := by
  have hchar := closureFold_char (List.range sCOUNT) range_pairwise_lt getPrereqs_downward flags
  unfold closurePass at ht ⊢
  rcases (hchar t).mp ht with h1 | ⟨j, hjL, hfj, htj⟩
  · exact (hchar p).mpr (Or.inr ⟨t, List.mem_range.mpr ht24, h1, hp⟩)
  · exact (hchar p).mpr (Or.inr ⟨j, hjL, hfj, getPrereqs_trans j hjL t htj p hp⟩)

theorem c7_prereq_closure_witness :
    sHIDDEN_OCTUPLET < sCOUNT ∧ sNAKED_PAIR ∈ getPrereqs sHIDDEN_OCTUPLET ∧
    closurePass (fun i => decide (i = sHIDDEN_OCTUPLET)) sNAKED_PAIR = true :=
  ⟨by decide, by decide,
    c7_prereq_closure (fun i => decide (i = sHIDDEN_OCTUPLET)) sHIDDEN_OCTUPLET sNAKED_PAIR
      (by decide) (by decide) (by decide)⟩


/-- C8: after CellBoard.setValue(row, col, v) or
CellBoard.removeNotes(row, col, notes), the searched-groups memoization
flag of the cell's row, of its column, and of its box is cleared for
every strategy, so a previously-memoized group is re-searched after any
relevant change (setValue/removeNotes and the table itself are Modelled
from the spec, the table being absent from the reviewed CellBoard.ts). -/
theorem c8_searchedGroups_cleared (cb : CellBoard) (row col : Nat) (v : Fin 9)
    (notes : Group) (s : Nat) :
    ((cb.setValue row col v).getSearchedGroups s gROW row = false ∧
     (cb.setValue row col v).getSearchedGroups s gCOLUMN col = false ∧
     (cb.setValue row col v).getSearchedGroups s gBOX (Cell.calculateBox row col) = false) ∧
    ((cb.removeNotes row col notes).getSearchedGroups s gROW row = false ∧
     (cb.removeNotes row col notes).getSearchedGroups s gCOLUMN col = false ∧
     (cb.removeNotes row col notes).getSearchedGroups s gBOX
       (Cell.calculateBox row col) = false) := by
  unfold CellBoard.setValue CellBoard.removeNotes CellBoard.getSearchedGroups
  dsimp only
  refine ⟨⟨?_, ?_, ?_⟩, ?_, ?_, ?_⟩ <;> simp


/-- C9 counterexample: on a freshly constructed Strategy (nothing
identified), getCause, getGroups, getValuesToPlace, getNotesToRemove and
getDifficulty all fail with STRATEGY_NOT_IDENTIFIED, but — contrary to
the claim — getStrategyType has no verifyIdentified guard in the source
and returns the (unset) field without error. -/
theorem c9_getStrategyType_counterexample :
    Strategy.getCause {} = .error .STRATEGY_NOT_IDENTIFIED ∧
    Strategy.getGroups {} = .error .STRATEGY_NOT_IDENTIFIED ∧
    Strategy.getValuesToPlace {} = .error .STRATEGY_NOT_IDENTIFIED ∧
    Strategy.getNotesToRemove {} = .error .STRATEGY_NOT_IDENTIFIED ∧
    Strategy.getDifficulty {} = .error .STRATEGY_NOT_IDENTIFIED ∧
    Strategy.getStrategyType ({} : StratState) = .ok none :=
  ⟨rfl, rfl, rfl, rfl, rfl, rfl⟩

/-- C9 (amended): while the identified flag is unset the five guarded
accessors — cause, groups, values to place, notes to remove, difficulty —
fail with STRATEGY_NOT_IDENTIFIED, while getStrategyType (unguarded in
the source) returns the raw field; after a successful setStrategyType
call every accessor, getStrategyType included, returns without error. -/
theorem c9_accessor_guard_amended (s s1 : StratState) (cb cb1 : CellBoard)
    (strategyType : Nat) (drill : Bool)
    (huns : s.identified = false)
    (hset : setStrategyType cb s strategyType drill = ((s1, cb1), true)) :
    (Strategy.getCause s = .error .STRATEGY_NOT_IDENTIFIED ∧
     Strategy.getGroups s = .error .STRATEGY_NOT_IDENTIFIED ∧
     Strategy.getValuesToPlace s = .error .STRATEGY_NOT_IDENTIFIED ∧
     Strategy.getNotesToRemove s = .error .STRATEGY_NOT_IDENTIFIED ∧
     Strategy.getDifficulty s = .error .STRATEGY_NOT_IDENTIFIED ∧
     Strategy.getStrategyType s = .ok s.strategyType) ∧
    (Strategy.getCause s1 = .ok s1.cause ∧
     Strategy.getGroups s1 = .ok s1.groups ∧
     Strategy.getValuesToPlace s1 = .ok s1.values ∧
     Strategy.getNotesToRemove s1 = .ok s1.notes ∧
     Strategy.getDifficulty s1 = .ok s1.difficulty ∧
     Strategy.getStrategyType s1 = .ok s1.strategyType) := by
  have hid : s1.identified = true := by
    unfold setStrategyType at hset
    rcases hiso : isStrategy cb strategyType drill s with ⟨b, s2, cb2⟩
    rw [hiso] at hset
    cases b
    · simp at hset
    · simp only [Prod.mk.injEq] at hset
      obtain ⟨⟨hs1, _⟩, _⟩ := hset
      rw [← hs1]
  constructor
  · simp [Strategy.getCause, Strategy.getGroups, Strategy.getValuesToPlace,
      Strategy.getNotesToRemove, Strategy.getDifficulty, Strategy.getStrategyType,
      verifyIdentified, huns, Except.bind]
  · simp [Strategy.getCause, Strategy.getGroups, Strategy.getValuesToPlace,
      Strategy.getNotesToRemove, Strategy.getDifficulty, Strategy.getStrategyType,
      verifyIdentified, hid, Except.bind]

/-- The board for the C9 witness: row 0 holds the digits 1..8 in columns
0..7 and its last cell is empty with only the note 9, a naked single
that setStrategyType(NAKED_SINGLE) identifies; all other cells are empty
with full notes. -/
def c9cells : Nat → Nat → Cell := fun r c =>
  if r = 0 then
    if hc : c < 8 then { row := r, col := c, value := some ⟨c, by omega⟩ }
    else { row := 0, col := 8, notes := ⟨fun j => j == 8, none, none⟩ }
  else { row := r, col := c, notes := Group.ofBool true }

/-- The successful NAKED_SINGLE identification run on `c9cells`. -/
def c9run : (StratState × CellBoard) × Bool :=
  setStrategyType (CellBoard.ofCells c9cells) {} sNAKED_SINGLE false

/-- The strategy state left by `c9run`. -/
def c9s1 : StratState := c9run.1.1

/-- The cell board left by `c9run`. -/
def c9cb1 : CellBoard := c9run.1.2

theorem c9_accessor_guard_amended_witness :
    (Strategy.getCause {} = .error .STRATEGY_NOT_IDENTIFIED ∧
     Strategy.getGroups {} = .error .STRATEGY_NOT_IDENTIFIED ∧
     Strategy.getValuesToPlace {} = .error .STRATEGY_NOT_IDENTIFIED ∧
     Strategy.getNotesToRemove {} = .error .STRATEGY_NOT_IDENTIFIED ∧
     Strategy.getDifficulty {} = .error .STRATEGY_NOT_IDENTIFIED ∧
     Strategy.getStrategyType ({} : StratState) = .ok (StratState.strategyType {})) ∧
    (Strategy.getCause c9s1 = .ok c9s1.cause ∧
     Strategy.getGroups c9s1 = .ok c9s1.groups ∧
     Strategy.getValuesToPlace c9s1 = .ok c9s1.values ∧
     Strategy.getNotesToRemove c9s1 = .ok c9s1.notes ∧
     Strategy.getDifficulty c9s1 = .ok c9s1.difficulty ∧
     Strategy.getStrategyType c9s1 = .ok c9s1.strategyType) :=
  c9_accessor_guard_amended {} c9s1 (CellBoard.ofCells c9cells) c9cb1
    sNAKED_SINGLE false rfl rfl


/-- The board state for C6: six empty cells — (0,0) and (0,1) with notes
{1,2}, (0,2) with {1,3}, (1,0) with {2,5}, and (4,4), (4,5) with {6,7} —
the rest filled with the Latin pattern (3(r%3) + r/3 + c) % 9.  Fresh
naked-pair instances exist at (ROW,0) and (BOX,0), both caused by
{(0,0),(0,1)}; the pair (4,4),(4,5) prunes nothing, so on a fresh state
it is not an instance. -/
def c6cells : Nat → Nat → Cell := fun r c =>
  if r = 0 ∧ c = 0 then { row := 0, col := 0, notes := ⟨fun j => j == 0 || j == 1, none, none⟩ }
  else if r = 0 ∧ c = 1 then { row := 0, col := 1, notes := ⟨fun j => j == 0 || j == 1, none, none⟩ }
  else if r = 0 ∧ c = 2 then { row := 0, col := 2, notes := ⟨fun j => j == 0 || j == 2, none, none⟩ }
  else if r = 1 ∧ c = 0 then { row := 1, col := 0, notes := ⟨fun j => j == 1 || j == 4, none, none⟩ }
  else if r = 4 ∧ c = 4 then { row := 4, col := 4, notes := ⟨fun j => j == 5 || j == 6, none, none⟩ }
  else if r = 4 ∧ c = 5 then { row := 4, col := 5, notes := ⟨fun j => j == 5 || j == 6, none, none⟩ }
  else if h : r < 9 ∧ c < 9 then
    { row := r, col := c, value := some ⟨(3 * (r % 3) + r / 3 + c) % 9, by omega⟩ }
  else { row := r, col := c }

/-- The C6 board. -/
def c6cb : CellBoard := CellBoard.ofCells c6cells

/-- C6 (code bug): on `c6cb`, every naked-pair instance found from a
fresh strategy state has the same cause-cell set {(0,0),(0,1)} (and at
least one such instance exists), so the claim says the drill check must
return true; yet isStrategy(NAKED_PAIR, drill=true) returns false.  The
strategy state is not reset after a successful same-cause comparison, so
this.notes keeps the earlier instance's entries; when the scan reaches
the prune-free pair (4,4),(4,5) in box 4, the leaked notes let it pass
the `this.notes.length === 0` rejection, and the leaked this.cause makes
the cause comparison fail. -/
theorem c6_drill_state_leak :
    (isStrategy c6cb sNAKED_PAIR true {}).1 = false ∧
    (isNakedSet c6cb 2 gROW 0 (c6cb.getEmptyCellsInGroup gROW 0)
      ⟨fun j => j == 0 || j == 1, none, none⟩ {}).2 = true ∧
    (∀ g ∈ List.range gCOUNT, ∀ i ∈ List.range 9, ∀ sub ∈ Group.getSubset 2,
      (isNakedSet c6cb 2 g i (c6cb.getEmptyCellsInGroup g i) sub {}).2 = true →
        cellsEqual (isNakedSet c6cb 2 g i (c6cb.getEmptyCellsInGroup g i) sub {}).1.cause
          [{ row := 0, col := 0 }, { row := 0, col := 1 }] = true) := by
  refine ⟨by decide, by decide, by decide⟩


/-- A board as Refutation.getRefutationScore sees it: a 9x9 grid of
Cells (the source's Cell[][]). -/
def RBoard := Nat → Nat → Cell

/-- Modelled from the spec: the helpers Refutation.ts imports from the
absent SimpleSolver.ts and Sudoku.ts — solveStep (one obvious/hidden
single step, None when stuck; it is the source of per-trial randomness
together with the next() stream), the duplicate check (the source call
throws on a duplicate), the solved check, and simplifyNotes. -/
structure RefutationEnv where
  solveStep : RBoard → Option RBoard
  hasDuplicates : RBoard → Bool
  isSolved : RBoard → Bool
  simplifyNotes : RBoard → Nat → Nat → RBoard

/-- Modelled from the spec: Cell.setValue on a board copy (Cell.ts is
absent); places the candidate value in the addressed cell. -/
def RBoard.setVal (b : RBoard) (r c : Nat) (v : Fin 9) : RBoard :=
  fun r2 c2 => if r2 = r ∧ c2 = c then { b r2 c2 with value := some v } else b r2 c2

/-- The inner `while (true)` refutation loop of getRefutationScore:
increment the score, stop on a duplicate, stop when no simple step
applies, else recurse (fuel bounds the unbounded source loop). -/
def refuteLoop (env : RefutationEnv) : Nat → RBoard → Int → Int
  | 0, tb, acc =>
    let acc1 := acc + 1
    if env.hasDuplicates tb then acc1
    else match env.solveStep tb with
      | none => acc1
      | some _ => acc1
  | fuel + 1, tb, acc =>
    let acc1 := acc + 1
    if env.hasDuplicates tb then acc1
    else match env.solveStep tb with
      | none => acc1
      | some tb2 => refuteLoop env fuel tb2 acc1

/-- The candidate loop of getRefutationScore for one empty cell: try
every wrong candidate still in the cell's notes, refute it on a temp
copy, and keep the lowest score with its cell address. -/
def scanCell (env : RefutationEnv) (fuelR : Nat) (sol : Nat → Nat → Fin 9) (b : RBoard)
    (r c : Nat) (st : Int × Option (Nat × Nat)) : Int × Option (Nat × Nat) :=
  (List.finRange 9).foldl (fun acc cand =>
    if sol r c = cand ∨ (b r c).notes.contains cand = false then acc
    else
      let tb := env.simplifyNotes (b.setVal r c cand) r c
      let score := refuteLoop env fuelR tb 0
      if score < acc.1 then (score, some (r, c)) else acc) st

/-- The cell loop of getRefutationScore: visit the 81 cells in row-major
order, skip filled cells, and — once a first score exists — consume one
next() draw per cell and skip it when the draw is below the boost; the
Nat component counts the draws consumed from the trial's stream. -/
def scanCells (env : RefutationEnv) (fuelR : Nat) (sol : Nat → Nat → Fin 9) (boost : ℚ)
    (rng : Nat → ℚ) (b : RBoard) (k0 : Nat) : (Int × Option (Nat × Nat)) × Nat :=
  ((List.range 9).flatMap (fun r => (List.range 9).map (fun c => (r, c)))).foldl
    (fun st p =>
      if (b p.1 p.2).isEmpty = false then st
      else if st.1.2.isSome then
        if rng st.2 < boost then (st.1, st.2 + 1)
        else (scanCell env fuelR sol b p.1 p.2 st.1, st.2 + 1)
      else (scanCell env fuelR sol b p.1 p.2 st.1, st.2))
    ((1000000, none), k0)

/-- The `while (SimpleSolver.solveStep(boardCopy)) {}` loop: apply
simple steps until none applies (fuel bounds the unbounded source
loop). -/
def solveAll (env : RefutationEnv) : Nat → RBoard → RBoard
  | 0, b => b
  | fuel + 1, b =>
    match env.solveStep b with
    | none => b
    | some b2 => solveAll env fuel b2

/-- The outer `while (!isSolved)` loop of one trial: run simple solving
to a fixpoint, scan the empty cells, stop if no score was computed, else
add the lowest score to the total and fill its cell with the solution
value (fuel bounds the unbounded source loop). -/
def runTrialLoop (env : RefutationEnv) (sol : Nat → Nat → Fin 9) (boost : ℚ)
    (rng : Nat → ℚ) (fuelR fuelS : Nat) : Nat → RBoard → Nat → Int → Int
  | 0, _, _, acc => acc
  | fuel + 1, b, k, acc =>
    if env.isSolved b then acc
    else
      let b1 := solveAll env fuelS b
      match scanCells env fuelR sol boost rng b1 k with
      | ((low, some rc), k1) =>
          runTrialLoop env sol boost rng fuelR fuelS fuel
            (b1.setVal rc.1 rc.2 (sol rc.1 rc.2)) k1 (acc + low)
      | ((_, none), _) => acc

/-- One of the 30 trials of getRefutationScore, on a fresh copy of the
board with its own next()-stream. -/
def runTrial (env : RefutationEnv) (board : RBoard) (sol : Nat → Nat → Fin 9)
    (boost : ℚ) (rng : Nat → ℚ) (fuelR fuelS fuelW : Nat) : Int :=
  runTrialLoop env sol boost rng fuelR fuelS fuelW board 0 0

/-- Refutation.getRefutationScore: sum the scores of 30 trials (each on
a copy of the board, trial i drawing from stream `rngs i`) and return
Math.floor of the total divided by 30. -/
def getRefutationScore (env : RefutationEnv) (board : RBoard) (sol : Nat → Nat → Fin 9)
    (boost : ℚ) (rngs : Nat → Nat → ℚ) (fuelR fuelS fuelW : Nat) : Int :=
  Int.fdiv
    ((List.range 30).foldl
      (fun acc i => acc + runTrial env board sol boost (rngs i) fuelR fuelS fuelW) 0)
    30


lemma refuteLoop_ge (env : RefutationEnv) :
    ∀ (fuel : Nat) (tb : RBoard) (acc : Int), acc + 1 ≤ refuteLoop env fuel tb acc := by
  intro fuel
  induction fuel with
  | zero =>
    intro tb acc
    unfold refuteLoop
    dsimp only
    split
    · exact le_rfl
    · cases env.solveStep tb <;> exact le_rfl
  | succ n ih =>
    intro tb acc
    unfold refuteLoop
    dsimp only
    split
    · exact le_rfl
    · cases hss : env.solveStep tb
      · exact le_rfl
      · exact le_trans (by omega) (ih _ (acc + 1))

lemma foldl_inv {α β : Type _} (P : β → Prop) (f : β → α → β) :
    ∀ (l : List α) (init : β), P init → (∀ b a, P b → P (f b a)) → P (l.foldl f init) := by
  intro l
  induction l with
  | nil => intro init h0 _; simpa using h0
  | cons a t ih =>
    intro init h0 hstep
    rw [List.foldl_cons]
    exact ih (f init a) (hstep init a h0) hstep

lemma scanCell_low (env : RefutationEnv) (fuelR : Nat) (sol : Nat → Nat → Fin 9)
    (b : RBoard) (r c : Nat) (st : Int × Option (Nat × Nat)) (h : 1 ≤ st.1) :
    1 ≤ (scanCell env fuelR sol b r c st).1 := by
  unfold scanCell
  refine foldl_inv (fun acc : Int × Option (Nat × Nat) => 1 ≤ acc.1) _
    (List.finRange 9) st h ?_
  intro acc cand hacc
  dsimp only
  split
  · exact hacc
  · split
    · simpa using refuteLoop_ge env fuelR _ 0
    · exact hacc

lemma scanCells_low (env : RefutationEnv) (fuelR : Nat) (sol : Nat → Nat → Fin 9)
    (boost : ℚ) (rng : Nat → ℚ) (b : RBoard) (k0 : Nat) :
    1 ≤ (scanCells env fuelR sol boost rng b k0).1.1 := by
  unfold scanCells
  refine foldl_inv (fun st : (Int × Option (Nat × Nat)) × Nat => 1 ≤ st.1.1) _ _ _
    (by norm_num) ?_
  intro st p hst
  dsimp only
  split
  · exact hst
  · split
    · split
      · exact hst
      · exact scanCell_low env fuelR sol b p.1 p.2 st.1 hst
    · exact scanCell_low env fuelR sol b p.1 p.2 st.1 hst

lemma runTrialLoop_nonneg (env : RefutationEnv) (sol : Nat → Nat → Fin 9) (boost : ℚ)
    (rng : Nat → ℚ) (fuelR fuelS : Nat) :
    ∀ (fuel : Nat) (b : RBoard) (k : Nat) (acc : Int), 0 ≤ acc →
      0 ≤ runTrialLoop env sol boost rng fuelR fuelS fuel b k acc := by
  intro fuel
  induction fuel with
  | zero => intro b k acc h; exact h
  | succ n ih =>
    intro b k acc h
    unfold runTrialLoop
    dsimp only
    split
    · exact h
    · have hl := scanCells_low env fuelR sol boost rng (solveAll env fuelS b) k
      rcases hscan : scanCells env fuelR sol boost rng (solveAll env fuelS b) k
        with ⟨⟨low, rc⟩, k1⟩
      rw [hscan] at hl
      dsimp only at hl
      cases rc with
      | none => exact h
      | some rcv =>
        dsimp only
        exact ih _ k1 (acc + low) (by omega)

lemma foldl_add_eq_sum (g : Nat → Int) : ∀ (n : Nat) (init : Int),
    (List.range n).foldl (fun acc i => acc + g i) init =
      init + ∑ i in Finset.range n, g i := by
  intro n
  induction n with
  | zero => intro init; simp
  | succ m ih =>
    intro init
    rw [List.range_succ, List.foldl_append, ih init, List.foldl_cons, List.foldl_nil,
      Finset.sum_range_succ]
    ring

/-- C10: Refutation.getRefutationScore runs exactly 30 randomized
trials — trial i works on its own copy of the board and draws from its
own next()-stream, so the trials are independent — accumulates every
trial's per-step lowest refutation scores into one total, and returns
the floor of the total divided by 30; the result is non-negative, and
no input of the computation carries the Board's [1,1000] difficulty. -/
theorem c10_refutation_score (env : RefutationEnv) (board : RBoard)
    (sol : Nat → Nat → Fin 9) (boost : ℚ) (rngs : Nat → Nat → ℚ)
    (fuelR fuelS fuelW : Nat) :
    getRefutationScore env board sol boost rngs fuelR fuelS fuelW =
      Int.fdiv (∑ i in Finset.range 30,
        runTrial env board sol boost (rngs i) fuelR fuelS fuelW) 30 ∧
    0 ≤ getRefutationScore env board sol boost rngs fuelR fuelS fuelW := by
  have hsum := foldl_add_eq_sum
    (fun i => runTrial env board sol boost (rngs i) fuelR fuelS fuelW) 30 0
  have htriv : ∀ i, 0 ≤ runTrial env board sol boost (rngs i) fuelR fuelS fuelW :=
    fun i => runTrialLoop_nonneg env sol boost (rngs i) fuelR fuelS fuelW board 0 0 le_rfl
  constructor
  · unfold getRefutationScore
    rw [hsum, zero_add]
  · unfold getRefutationScore
    rw [hsum, zero_add]
    exact Int.fdiv_nonneg (Finset.sum_nonneg (fun i _ => htriv i)) (by norm_num)

end Sudokuru
